import Mathlib

/-! # v2ray-publisher: configuration loading and publication handlers

A shallow embedding of `publisher.go`, `subscriber.go`, `vmess_server.go` and
`routing_rule.go`.

Conventions of the embedding

* A Go `string` is a Lean `String`; a Go slice is a `List`.
* A Go `map[string]T` is an association list read with `GoMap.get`; an
  assignment `m[k] = v` puts the pair in front, so the newest binding wins.
* A Go pointer that may be nil (`*VMessServer`, `*[]RoutingRule` stored in the
  indexes) is an `Option`.  `subscriberIndex` holds `&p.subscribers[i]`, which is
  never nil, and is modelled by the record it points to; this is exact as long
  as `p.subscribers` is not decoded again after the index was filled, and for
  the keys of the index it is always exact.
* The jsoniter iterator is an external library.  A configuration file is
  modelled by what the iterator reports to `LoadConfigFile`: the sequence of
  top-level keys returned by `ReadObject`, for each key how its value reads, and
  the error (if any) that the last `ReadObject` leaves in `iter.Error`.
* A run-time panic is an explicit outcome.
-/

namespace V2rayPublisher

/-! ## Data model -/

/-- VMessServer of `vmess_server.go`; the fields are in declaration order. -/
structure VMessServer where
  ConfigVersion : String
  Remarks : String
  Address : String
  Port : String
  ID : String
  AlterID : String
  Network : String
  HeaderType : String
  RequestHost : String
  Path : String
  StreamSecurity : String
  SNI : String
deriving DecidableEq, Repr

/-- RoutingRule of `routing_rule.go`. -/
structure RoutingRule where
  Domain : List String
  IP : List String
  Port : String
  Protocol : List String
  OutboundTag : String
deriving DecidableEq, Repr

/-- Subscriber of `subscriber.go`. -/
structure Subscriber where
  Remarks : String
  Key : String
  VMessServers : List String
  RoutingRules : List String
deriving DecidableEq, Repr

/-- Go `map[string]β` as an association list, newest binding first. -/
abbrev GoMap (β : Type) := List (String × β)

namespace GoMap

/-- Map read `m[k]`, with the comma-ok result as an `Option`. -/
def get {β : Type} (m : GoMap β) (k : String) : Option β :=
  match m with
  | [] => none
  | (k1, v) :: rest => if k1 = k then some v else get rest k

/-- The `ok` of `_, ok := m[k]`. -/
def has {β : Type} (m : GoMap β) (k : String) : Bool :=
  (get m k).isSome

/-- Assignment `m[k] = v`. -/
def set {β : Type} (m : GoMap β) (k : String) (v : β) : GoMap β :=
  (k, v) :: m

/-- Assignments `m[k] = v` for each decoded entry, in order. -/
def setAll {β : Type} (m : GoMap β) (entries : List (String × β)) : GoMap β :=
  entries.foldl (fun acc e => set acc e.1 e.2) m

end GoMap

/-- Publisher of `publisher.go` (the router field is transport plumbing).  The Go
slice `subscribers` is its elements up to its length, here `subscribers`, and
the elements of its backing array beyond the length, here `subscribersSpare`:
they are not visible through the slice, but a later `ReadVal` into the slice
decodes into them. -/
structure Publisher where
  vmessServerIndex : GoMap (Option VMessServer)
  routingRulesIndex : GoMap (Option (List RoutingRule))
  subscribers : List Subscriber
  subscriberIndex : GoMap Subscriber
  subscribersSpare : List Subscriber := []
deriving DecidableEq, Repr

/-- NewPublisher: empty indexes, `routingRulesIndex` and `subscribers` left nil. -/
def NewPublisher : Publisher :=
  { vmessServerIndex := [], routingRulesIndex := [], subscribers := [], subscriberIndex := [] }

/-! ## The configuration file as the iterator reports it -/

/-- One element of a `subscribers` array, by what the struct decoder does with
it: for each field the value the object gives it, or `none` when the object
does not mention the field (so for `{}` and for the element `null` all four are
`none`). -/
structure SubscriberFields where
  Remarks : Option String
  Key : Option String
  VMessServers : Option (List String)
  RoutingRules : Option (List String)
deriving DecidableEq, Repr

/-- The value that follows a top-level key, by what the reader applied to it
does.  `servers` and `rules` are objects that `ReadVal` decodes without error
into a map of that type (strict decoding, `DisallowUnknownFields`), assigning
the listed entries in order; `subscribers` is an array that `ReadVal` decodes
without error into `[]Subscriber`, with the listed elements; `null` is the JSON
`null`, which resets a map or slice target; `other` is any other value:
`ReadVal` fails on it, and `skipErr` is the error `iter.Skip()` reports on it
(`none` when it is well-formed JSON). -/
inductive Value where
  | servers (entries : List (String × Option VMessServer))
  | rules (entries : List (String × Option (List RoutingRule)))
  | subscribers (elems : List SubscriberFields)
  | null
  | other (skipErr : Option String)
deriving DecidableEq, Repr

/-- One top-level member: the key `ReadObject` returns, the error it reports
while reading the key (for instance a missing colon), and the value. -/
structure Field where
  name : String
  nameErr : Option String
  value : Value
deriving DecidableEq, Repr

/-- The bytes of a configuration file as seen through the iterator: the members
read before `ReadObject` returns the empty string for lack of a further key, and
the error that call reports (`none` at a closing brace or at `null`, `some` when
the input is not an object, is truncated or is otherwise broken there). -/
structure Document where
  fields : List Field
  endErr : Option String
deriving DecidableEq, Repr

/-- Result of `ioutil.ReadFile`. -/
inductive File where
  | unreadable (err : String)
  | bytes (doc : Document)
deriving DecidableEq, Repr

/-- The errors `LoadConfigFile` can return. -/
inductive LoadError where
  | readFile (err : String)
  | unknownField (field : String)
  | decode (err : String)
  | invalidKey (tag : String)
  | serverNotFound (remarks : String) (serverID : String)
  | rulesNotFound (remarks : String) (rulesID : String)
  | duplicateKey (key : String)
deriving DecidableEq, Repr

/-- The message of each error (`err.Error()`).  The message of an invalid key is
the one the validator library produces for a failed tag on field `Key`. -/
def LoadError.Error : LoadError → String
  | .readFile err => err
  | .unknownField field => "Parse config error: Unknown config field \x27" ++ field ++ "\x27"
  | .decode err => err
  | .invalidKey tag =>
      "Key: \x27Subscriber.Key\x27 Error:Field validation for \x27Key\x27 failed on the \x27"
        ++ tag ++ "\x27 tag"
  | .serverNotFound remarks serverID =>
      "Subscriber(" ++ remarks ++ ") want VMess Server(" ++ serverID ++ "), but not found"
  | .rulesNotFound remarks rulesID =>
      "Subscriber(" ++ remarks ++ ") want Routing Rule(" ++ rulesID ++ "), but not found"
  | .duplicateKey key =>
      "validate config error: duplicate subscriber key (" ++ key ++ ") found, which is not allowed"

/-- How a call of `LoadConfigFile` ends. -/
inductive Outcome where
  | ok
  | error (e : LoadError)
  | panic
deriving DecidableEq, Repr

/-- The Publisher after the call and how the call ended. -/
structure LoadResult where
  pub : Publisher
  outcome : Outcome
deriving DecidableEq, Repr

/-! ## Library behaviour used by `LoadConfigFile` -/

/-- Iterator `ReportError`: the first error sticks. -/
def reportError (cur : Option String) (e : Option String) : Option String :=
  match cur with
  | some x => some x
  | none => e

/-- Error reported by `iter.Skip()` on a value. -/
def Value.skip : Value → Option String
  | .other skipErr => skipErr
  | _ => none

/-- Decoder `iter.ReadVal(&p.vmessServerIndex)`: entries are assigned into the
existing map, `null` sets the map to nil; a value of another shape is a decode
error. -/
def readServers (m : GoMap (Option VMessServer)) :
    Value → GoMap (Option VMessServer) × Option String
  | .servers entries => (GoMap.setAll m entries, none)
  | .null => ([], none)
  | _ => (m, some "ReadVal: cannot decode into map[string]*VMessServer")

/-- Decoder `iter.ReadVal(&p.routingRulesIndex)`. -/
def readRules (m : GoMap (Option (List RoutingRule))) :
    Value → GoMap (Option (List RoutingRule)) × Option String
  | .rules entries => (GoMap.setAll m entries, none)
  | .null => ([], none)
  | _ => (m, some "ReadVal: cannot decode into map[string]*[]RoutingRule")

/-- The zero value of `Subscriber`. -/
def zeroSubscriber : Subscriber :=
  { Remarks := "", Key := "", VMessServers := [], RoutingRules := [] }

/-- The struct decoder applied to a slice element: the fields the object
mentions are overwritten, the others keep the value the element had. -/
def decodeInto (old : Subscriber) (f : SubscriberFields) : Subscriber :=
  { Remarks := f.Remarks.getD old.Remarks,
    Key := f.Key.getD old.Key,
    VMessServers := f.VMessServers.getD old.VMessServers,
    RoutingRules := f.RoutingRules.getD old.RoutingRules }

/-- The slice decoder over a backing array: the element at each position is
decoded into the array element at that position, and into a zero value where
the array has none (the slice has grown into fresh memory). -/
def decodeElems : List SubscriberFields → List Subscriber → List Subscriber
  | [], _ => []
  | f :: fs, [] => decodeInto zeroSubscriber f :: decodeElems fs []
  | f :: fs, old :: olds => decodeInto old f :: decodeElems fs olds

/-- Decoder `iter.ReadVal(&p.subscribers)` on the slice `s` with the elements
`spare` behind it in its backing array; the result is the slice and the
elements behind it afterwards.  A non-empty array is decoded element by
element into the backing array from its start; the empty array gives a new
empty slice and `null` a nil slice.  On a value that does not decode the target
is returned as it was: what the decoder wrote before it failed is not tracked,
since `LoadConfigFile` does not get past a failed `ReadVal` (see `anyError`). -/
def readSubscribers (s spare : List Subscriber) :
    Value → (List Subscriber × List Subscriber) × Option String
  | .subscribers elems =>
    if elems.isEmpty then (([], []), none)
    else ((decodeElems elems (s ++ spare), (s ++ spare).drop elems.length), none)
  | .null => (([], []), none)
  | _ => ((s, spare), some "ReadVal: cannot decode into []Subscriber")

/-- Method call `err.Error()` on a Go `error`: on the nil interface the call
panics (`none`), otherwise it returns the message. -/
def callError : Option String → Option String
  | none => none
  | some msg => some msg

/-- Validator tag `alphanum`: the regular expression `^[a-zA-Z0-9]+$`. -/
def alphanum (s : String) : Bool :=
  !s.data.isEmpty &&
    s.data.all (fun c => (0x61 ≤ c.toNat && c.toNat ≤ 0x7a) || (0x41 ≤ c.toNat && c.toNat ≤ 0x5a)
      || (0x30 ≤ c.toNat && c.toNat ≤ 0x39))

/-- Validation `val.Struct(&subscriber)` for the tag `gte=10,lte=32,alphanum` on
`Key`: the tags are tried in order on the rune count of the string, and the first
failing tag is reported. -/
def validateStruct (s : Subscriber) : Option LoadError :=
  if ¬ (10 ≤ s.Key.length) then some (.invalidKey "gte")
  else if ¬ (s.Key.length ≤ 32) then some (.invalidKey "lte")
  else if ¬ (alphanum s.Key = true) then some (.invalidKey "alphanum")
  else none

/-! ## `LoadConfigFile` -/

/-- The loop `for _, id := range ids` that returns at the first id missing from
the index: the id it stops at, if any. -/
def firstMissing {β : Type} (index : GoMap β) : List String → Option String
  | [] => none
  | id :: rest => if GoMap.has index id then firstMissing index rest else some id

/-- The loop `for i := range p.subscribers` under `LOAD_CONFIG_COMPLETE`: per
subscriber, the key validation, then the server ids, then the rule-set ids. -/
def validateConfig (p : Publisher) : List Subscriber → Option LoadError
  | [] => none
  | s :: rest =>
    match validateStruct s with
    | some err => some err
    | none =>
      match firstMissing p.vmessServerIndex s.VMessServers with
      | some serverID => some (.serverNotFound s.Remarks serverID)
      | none =>
        match firstMissing p.routingRulesIndex s.RoutingRules with
        | some rulesID => some (.rulesNotFound s.Remarks rulesID)
        | none => validateConfig p rest

/-- The loop `// update subscriberIndex`: entries are inserted until a key
already in the index is met. -/
def updateSubscriberIndex (index : GoMap Subscriber) :
    List Subscriber → GoMap Subscriber × Option LoadError
  | [] => (index, none)
  | s :: rest =>
    if GoMap.has index s.Key then (index, some (.duplicateKey s.Key))
    else updateSubscriberIndex (GoMap.set index s.Key s) rest

/-- The code from the label `LOAD_CONFIG_COMPLETE` to the end of the function. -/
def loadConfigComplete (p : Publisher) : LoadResult :=
  match validateConfig p p.subscribers with
  | some err => { pub := p, outcome := .error err }
  | none =>
    match updateSubscriberIndex p.subscriberIndex p.subscribers with
    | (index, some err) => { pub := { p with subscriberIndex := index }, outcome := .error err }
    | (index, none) => { pub := { p with subscriberIndex := index }, outcome := .ok }

/-- The check `// any error?` after a `ReadVal`: with `iter.Error` set, the
log call evaluates `err.Error()` on the function-level `err` (the result of
`ReadFile`) before `iter.Error` is returned. -/
def anyError (p : Publisher) (err : Option String) (iterError : Option String)
    (next : Publisher → LoadResult) : LoadResult :=
  match iterError with
  | some e =>
    match callError err with
    | none => { pub := p, outcome := .panic }
    | some _ => { pub := p, outcome := .error (.decode e) }
  | none => next p

/-- The loop `for { switch field := iter.ReadObject(); field { ... } }`.  `err` is
the function-level variable, `iterError` is `iter.Error`, the list holds the
members still to be read and `endErr` what the last `ReadObject` reports. -/
def readFields (err : Option String) (endErr : Option String) :
    Publisher → Option String → List Field → LoadResult
  | p, iterError, [] =>
    -- ReadObject returns "" and the case "" jumps to the label; iter.Error is not read
    let _ := reportError iterError endErr
    loadConfigComplete p
  | p, iterError, f :: rest =>
    let iterError := reportError iterError f.nameErr
    if f.name = "" then loadConfigComplete p
    else if f.name = "publisher" then
      readFields err endErr p (reportError iterError f.value.skip) rest
    else if f.name = "vmessServers" then
      let r := readServers p.vmessServerIndex f.value
      anyError { p with vmessServerIndex := r.1 } err (reportError iterError r.2)
        (fun q => readFields err endErr q none rest)
    else if f.name = "routingRules" then
      let r := readRules p.routingRulesIndex f.value
      anyError { p with routingRulesIndex := r.1 } err (reportError iterError r.2)
        (fun q => readFields err endErr q none rest)
    else if f.name = "subscribers" then
      let r := readSubscribers p.subscribers p.subscribersSpare f.value
      anyError { p with subscribers := r.1.1, subscribersSpare := r.1.2 } err
        (reportError iterError r.2)
        (fun q => readFields err endErr q none rest)
    else { pub := p, outcome := .error (.unknownField f.name) }

/-- LoadConfigFile of `publisher.go`. -/
def LoadConfigFile (p : Publisher) (file : File) : LoadResult :=
  match file with
  | .unreadable err => { pub := p, outcome := .error (.readFile err) }
  | .bytes doc => readFields none doc.endErr p none doc.fields

/-! ## Library behaviour used by the handlers -/

/-- UTF-8 bytes of one character. -/
def utf8Bytes (c : Char) : List Nat :=
  let n := c.toNat
  if n < 0x80 then [n]
  else if n < 0x800 then [0xC0 + n / 64, 0x80 + n % 64]
  else if n < 0x10000 then [0xE0 + n / 4096, 0x80 + (n / 64) % 64, 0x80 + n % 64]
  else [0xF0 + n / 262144, 0x80 + (n / 4096) % 64, 0x80 + (n / 64) % 64, 0x80 + n % 64]

/-- The bytes of a Go string (`[]byte(s)`). -/
def bytesOf (s : String) : List Nat :=
  s.data.flatMap utf8Bytes

namespace base64

/-- The alphabet of `base64.StdEncoding`. -/
def encodeStd : String :=
  "ABCDEFGHIJKLMNOPQRSTUVWXYZabcdefghijklmnopqrstuvwxyz0123456789+/"

/-- Table lookup `enc.encode[i]`. -/
def encode (i : Nat) : Char :=
  encodeStd.data.getD i (Char.ofNat 0x41)

/-- Encoding of `base64.StdEncoding` (padded): full 3-byte groups, then the
remaining one or two bytes with padding. -/
def encodeBytes : List Nat → List Char
  | [] => []
  | [a] =>
    let val := a * 65536
    [encode (val / 262144 % 64), encode (val / 4096 % 64), '=', '=']
  | [a, b] =>
    let val := a * 65536 + b * 256
    [encode (val / 262144 % 64), encode (val / 4096 % 64), encode (val / 64 % 64), '=']
  | a :: b :: c :: rest =>
    let val := a * 65536 + b * 256 + c
    encode (val / 262144 % 64) :: encode (val / 4096 % 64) :: encode (val / 64 % 64)
      :: encode (val % 64) :: encodeBytes rest

/-- EncodeToString of `base64.StdEncoding`, applied to the bytes of a string. -/
def EncodeToString (src : String) : String :=
  String.mk (encodeBytes (bytesOf src))

end base64

/-- An `io.Writer`: writing appends to what the writer holds. -/
class Writer (W : Type) where
  Write : W → String → W

/-- A `bytes.Buffer` or `strings.Builder`. -/
structure Buffer where
  data : String
deriving DecidableEq, Repr

instance : Writer Buffer where
  Write b s := { data := b.data ++ s }

/-- The streaming encoder of `base64.NewEncoder(base64.StdEncoding, w)`.  It
emits the encoding of complete 3-byte groups as they fill and the padded rest on
`Close`; what reaches `w` in total is the encoding of everything written, which
the model hands to `w` on `Close`. -/
structure Encoder where
  written : String
deriving DecidableEq, Repr

instance : Writer Encoder where
  Write e s := { written := e.written ++ s }

/-- A fresh encoder (`base64.NewEncoder`). -/
def base64.NewEncoder : Encoder :=
  { written := "" }

/-- Closing an encoder flushes the encoding of what was written to `w`. -/
def Encoder.Close {W : Type} [Writer W] (e : Encoder) (w : W) : W :=
  Writer.Write w (base64.EncodeToString e.written)

/-- The table `hex` of the JSON stream writer. -/
def hex (n : Nat) : Char :=
  "0123456789abcdef".data.getD n '0'

/-- One character of a string as the JSON stream writes it (no HTML escaping):
quote and backslash are escaped, line feed, carriage return and tab have short
escapes, other bytes below 0x20 are written as a u-escape, all else is raw. -/
def writeChar (c : Char) : List Char :=
  if c.toNat = 0x22 then [Char.ofNat 0x5c, Char.ofNat 0x22]
  else if c.toNat = 0x5c then [Char.ofNat 0x5c, Char.ofNat 0x5c]
  else if c.toNat = 0x0a then [Char.ofNat 0x5c, 'n']
  else if c.toNat = 0x0d then [Char.ofNat 0x5c, 'r']
  else if c.toNat = 0x09 then [Char.ofNat 0x5c, 't']
  else if c.toNat < 0x20 then
    [Char.ofNat 0x5c, 'u', '0', '0', hex (c.toNat / 16), hex (c.toNat % 16)]
  else [c]

/-- Stream `WriteString`: a JSON string literal. -/
def WriteString (s : String) : String :=
  "\x22" ++ String.mk (s.data.flatMap writeChar) ++ "\x22"

/-- One object member `"name":"value"` with a string value. -/
def writeField (name : String) (value : String) : String :=
  "\x22" ++ name ++ "\x22:" ++ WriteString value

/-- A JSON array of strings. -/
def writeStrings (l : List String) : String :=
  "[" ++ ",".intercalate (l.map WriteString) ++ "]"

/-- Struct encoder for `VMessServer`: every field, in declaration order, under
its `json` tag. -/
def marshalVMessServer (v : VMessServer) : String :=
  "\x7b" ++ ",".intercalate
    [ writeField "v" v.ConfigVersion, writeField "ps" v.Remarks, writeField "add" v.Address,
      writeField "port" v.Port, writeField "id" v.ID, writeField "aid" v.AlterID,
      writeField "net" v.Network, writeField "type" v.HeaderType,
      writeField "host" v.RequestHost, writeField "path" v.Path,
      writeField "tls" v.StreamSecurity, writeField "sni" v.SNI ] ++ "\x7d"

/-- Struct encoder for `RoutingRule`: fields tagged `omitempty` are left out when
empty; `outboundTag` is always written. -/
def marshalRoutingRule (r : RoutingRule) : String :=
  "\x7b" ++ ",".intercalate
    ((if r.Domain.isEmpty then [] else ["\x22domain\x22:" ++ writeStrings r.Domain])
      ++ (if r.IP.isEmpty then [] else ["\x22ip\x22:" ++ writeStrings r.IP])
      ++ (if r.Port.isEmpty then [] else [writeField "port" r.Port])
      ++ (if r.Protocol.isEmpty then [] else ["\x22protocol\x22:" ++ writeStrings r.Protocol])
      ++ [writeField "outboundTag" r.OutboundTag]) ++ "\x7d"

/-- Marshal of a `*VMessServer`: a nil pointer is `null`. -/
def marshalServer : Option VMessServer → String
  | none => "null"
  | some v => marshalVMessServer v

/-- Marshal `jsoniter.ConfigFastest.Marshal(rules)` of a `*[]RoutingRule`: the
bytes and the error, which no value of this type raises. -/
def Marshal : Option (List RoutingRule) → String × Option String
  | none => ("null", none)
  | some rules => ("[" ++ ",".intercalate (rules.map marshalRoutingRule) ++ "]", none)

/-- Encoder `jsonEncoder.Encode(v)`: the value, then a line feed, flushed to the
writer; returns the stream error, which no value of this type raises. -/
def Encode {W : Type} [Writer W] (w : W) (v : Option VMessServer) : W × Option String :=
  (Writer.Write w (marshalServer v ++ "\n"), none)

/-! ## `vmess_server.go` -/

/-- WriteShareLink of `vmess_server.go`; the deferred `Close` runs last. -/
def WriteShareLink {W : Type} [Writer W] (v : Option VMessServer) (w : W) : W × Option String :=
  let b64Writer := base64.NewEncoder
  let w := Writer.Write w "vmess://"
  let r := Encode b64Writer v
  (Encoder.Close r.1 w, r.2)

/-- ShareLink of `vmess_server.go`: the string and the error. -/
def ShareLink (v : Option VMessServer) : String × Option String :=
  let buf : Buffer := { data := "" }
  let r := WriteShareLink v buf
  match r.2 with
  | some err => ("", some err)
  | none => (r.1.data, none)

/-! ## The handlers of `publisher.go` -/

/-- What a handler writes to the `http.ResponseWriter`. -/
structure Response where
  status : Nat
  body : String
deriving DecidableEq, Repr

/-- Reply of `http.NotFound`. -/
def NotFound : Response :=
  { status := 404, body := "404 page not found\n" }

/-- The reply `WriteHeader(http.StatusInternalServerError)` with the fixed message. -/
def InternalServerError : Response :=
  { status := 500, body := "Server Internal Error, Please tell the administrator." }

/-- The loop `for _, vmessServerID := range subscriber.VMessServers` of
`PublishServersHandle`: either the reply it returns early with, or the encoder
after all links are written. -/
def writeServers (p : Publisher) : List String → Encoder → Except Response Encoder
  | [], b64Writer => .ok b64Writer
  | vmessServerID :: rest, b64Writer =>
    match GoMap.get p.vmessServerIndex vmessServerID with
    | none => .error InternalServerError
    | some server =>
      let r := WriteShareLink server b64Writer
      match r.2 with
      | some _ => .error InternalServerError
      | none => writeServers p rest (Writer.Write r.1 "\n")

/-- PublishServersHandle of `publisher.go`, as a function of the `key` parameter. -/
def PublishServersHandle (p : Publisher) (key : String) : Response :=
  match GoMap.get p.subscriberIndex key with
  | none => NotFound
  | some subscriber =>
    let buf : Buffer := { data := "" }
    match writeServers p subscriber.VMessServers base64.NewEncoder with
    | .error resp => resp
    | .ok b64Writer => { status := 200, body := (Encoder.Close b64Writer buf).data }

/-- PublishRoutingRulesHandle of `publisher.go`, as a function of the `key` and
`rulesID` parameters. -/
def PublishRoutingRulesHandle (p : Publisher) (key : String) (rulesID : String) : Response :=
  match GoMap.get p.subscriberIndex key with
  | none => NotFound
  | some subscriber =>
    if subscriber.RoutingRules.any (fun allowedRulesID => allowedRulesID = rulesID) then
      match GoMap.get p.routingRulesIndex rulesID with
      | none => InternalServerError
      | some rules =>
        match Marshal rules with
        | (_, some _) => InternalServerError
        | (bs, none) => { status := 200, body := bs }
    else NotFound

/-! ## Notions used to state the properties -/

/-- A member reads without error under a recognised key: the key is read
cleanly and is one of the four known names, and the value skips (for
`publisher`) or decodes into the target of its section. -/
def Field.Decodes (f : Field) : Prop :=
  f.nameErr = none ∧
    ((f.name = "publisher" ∧ f.value.skip = none)
      ∨ (f.name = "vmessServers" ∧ (readServers [] f.value).2 = none)
      ∨ (f.name = "routingRules" ∧ (readRules [] f.value).2 = none)
      ∨ (f.name = "subscribers" ∧ (readSubscribers [] [] f.value).2 = none))

/-- The document decodes without error and has only the recognised top-level
keys. -/
def Document.Decodes (d : Document) : Prop :=
  d.endErr = none ∧ ∀ f ∈ d.fields, f.Decodes

/-- The server ids defined after one more member: a `vmessServers` object adds
its keys, a `vmessServers` that is `null` drops what was defined before. -/
def serverIDsAfter (acc : List String) (f : Field) : List String :=
  if f.name = "vmessServers" then
    match f.value with
    | .servers entries => acc ++ entries.map Prod.fst
    | .null => []
    | _ => acc
  else acc

/-- The server ids the document defines: the keys of its `vmessServers`
section(s). -/
def Document.serverIDs (d : Document) : List String :=
  d.fields.foldl serverIDsAfter []

/-- The rule-set ids defined after one more member. -/
def rulesIDsAfter (acc : List String) (f : Field) : List String :=
  if f.name = "routingRules" then
    match f.value with
    | .rules entries => acc ++ entries.map Prod.fst
    | .null => []
    | _ => acc
  else acc

/-- The rule-set ids the document defines: the keys of its `routingRules`
section(s). -/
def Document.rulesIDs (d : Document) : List String :=
  d.fields.foldl rulesIDsAfter []

/-- The subscriber slice, with the elements behind it, after one more member: a
`subscribers` section is decoded into what was read before. -/
def subscribersAfter (acc : List Subscriber × List Subscriber) (f : Field) :
    List Subscriber × List Subscriber :=
  if f.name = "subscribers" then (readSubscribers acc.1 acc.2 f.value).1 else acc

/-- The subscriber list the document defines on a fresh Publisher: for a
document with one `subscribers` section, the elements of that section with the
fields they do not mention left at their zero value. -/
def Document.subscriberList (d : Document) : List Subscriber :=
  (d.fields.foldl subscribersAfter ([], [])).1

/-- The number of `subscribers` members of the document. -/
def Document.subscribersSections (d : Document) : Nat :=
  d.fields.countP fun f => f.name = "subscribers"

/-- The element of a `subscribers` array that mentions all four fields of the
subscriber. -/
def Subscriber.fields (s : Subscriber) : SubscriberFields :=
  { Remarks := some s.Remarks, Key := some s.Key, VMessServers := some s.VMessServers,
    RoutingRules := some s.RoutingRules }

/-- A subscriber key as the data model wants it: between 10 and 32 characters,
all of them alphanumeric. -/
def ValidKey (key : String) : Prop :=
  10 ≤ key.length ∧ key.length ≤ 32 ∧ ∀ c ∈ key.data, c.isAlphanum = true

instance ValidKey.decidable (key : String) : Decidable (ValidKey key) :=
  decidable_of_iff
    (10 ≤ key.length ∧ key.length ≤ 32 ∧ key.data.all Char.isAlphanum = true)
    (by simp [ValidKey])

/-- The checks of one pass of the validation loop on subscriber `s`: the error
that pass returns with, if any. -/
def checkSubscriber (p : Publisher) (s : Subscriber) : Option LoadError :=
  match validateStruct s with
  | some err => some err
  | none =>
    match firstMissing p.vmessServerIndex s.VMessServers with
    | some serverID => some (.serverNotFound s.Remarks serverID)
    | none =>
      match firstMissing p.routingRulesIndex s.RoutingRules with
      | some rulesID => some (.rulesNotFound s.Remarks rulesID)
      | none => none

/-- The Publisher after reading one member that decodes. -/
def decodeField (p : Publisher) (f : Field) : Publisher :=
  if f.name = "vmessServers" then
    { p with vmessServerIndex := (readServers p.vmessServerIndex f.value).1 }
  else if f.name = "routingRules" then
    { p with routingRulesIndex := (readRules p.routingRulesIndex f.value).1 }
  else if f.name = "subscribers" then
    { p with
      subscribers := (readSubscribers p.subscribers p.subscribersSpare f.value).1.1,
      subscribersSpare := (readSubscribers p.subscribers p.subscribersSpare f.value).1.2 }
  else p

/-! ## Concrete configurations -/

/-- The server `s1` of the scenario in the specification. -/
def serverS1 : VMessServer :=
  { ConfigVersion := "", Remarks := "", Address := "example.com", Port := "443", ID := "uuid-1",
    AlterID := "", Network := "ws", HeaderType := "", RequestHost := "", Path := "",
    StreamSecurity := "tls", SNI := "" }

/-- The rule set `r1` of the scenario. -/
def rulesR1 : List RoutingRule :=
  [{ Domain := [], IP := [], Port := "", Protocol := [], OutboundTag := "proxy" }]

/-- The subscriber `alice` of the scenario. -/
def alice : Subscriber :=
  { Remarks := "alice", Key := "abcdefghij0123", VMessServers := ["s1"], RoutingRules := ["r1"] }

/-- The configuration document of the scenario. -/
def scenarioDoc : Document :=
  { fields :=
      [ { name := "publisher", nameErr := none, value := .other none },
        { name := "vmessServers", nameErr := none, value := .servers [("s1", some serverS1)] },
        { name := "routingRules", nameErr := none, value := .rules [("r1", some rulesR1)] },
        { name := "subscribers", nameErr := none, value := .subscribers [alice.fields] } ],
    endErr := none }

/-- A second subscriber who uses the key of `alice`. -/
def bob : Subscriber :=
  { Remarks := "bob", Key := "abcdefghij0123", VMessServers := [], RoutingRules := [] }

/-- The scenario with `bob` added: two subscribers share one key. -/
def duplicateDoc : Document :=
  { fields :=
      [ { name := "vmessServers", nameErr := none, value := .servers [("s1", some serverS1)] },
        { name := "routingRules", nameErr := none, value := .rules [("r1", some rulesR1)] },
        { name := "subscribers", nameErr := none, value := .subscribers [alice.fields, bob.fields] } ],
    endErr := none }

/-- A file whose `vmessServers` value is the number 5:
`{"vmessServers": 5}`. -/
def badSectionDoc : Document :=
  { fields := [ { name := "vmessServers", nameErr := none, value := .other none } ],
    endErr := none }

/-- A file that holds the JSON array `[1,2]`: the first `ReadObject` finds no
object and reports it. -/
def arrayDoc : Document :=
  { fields := [],
    endErr := some "ReadObject: expect { or , or } or n, but found [" }

/-- A file cut off right after the skipped section: `{"publisher": {}`. -/
def truncatedDoc : Document :=
  { fields := [ { name := "publisher", nameErr := none, value := .other none } ],
    endErr := some "ReadObject: expect { or , or } or n, but found \x00" }

/-- A subscriber whose key is too short. -/
def shortKey : Subscriber :=
  { Remarks := "x", Key := "k", VMessServers := [], RoutingRules := [] }

/-- A file with an empty key in front of a section:
`{"": 1, "subscribers": [{"remarks": "x", "key": "k"}]}`. -/
def emptyKeyDoc : Document :=
  { fields :=
      [ { name := "", nameErr := none, value := .other none },
        { name := "subscribers", nameErr := none, value := .subscribers [shortKey.fields] } ],
    endErr := none }

/-- A file whose only subscriber has a key that is too short:
`{"subscribers": [{"remarks": "x", "key": "k"}]}`. -/
def invalidKeyDoc : Document :=
  { fields := [ { name := "subscribers", nameErr := none, value := .subscribers [shortKey.fields] } ],
    endErr := none }

/-- The member is a section read with `ReadVal` whose value does not decode into
the target of the section. -/
def Field.FailsToDecode (f : Field) : Prop :=
  (f.name = "vmessServers" ∧ (readServers [] f.value).2 ≠ none)
    ∨ (f.name = "routingRules" ∧ (readRules [] f.value).2 ≠ none)
    ∨ (f.name = "subscribers" ∧ (readSubscribers [] [] f.value).2 ≠ none)

/-- The Publisher after loading the scenario document. -/
def scenarioPub : Publisher :=
  { vmessServerIndex := [("s1", some serverS1)],
    routingRulesIndex := [("r1", some rulesR1)],
    subscribers := [alice],
    subscriberIndex := [("abcdefghij0123", alice)] }

/-- A Publisher whose subscriber lists the rule set `r1` while the rule-set
index is empty. -/
def orphanPub : Publisher :=
  { vmessServerIndex := [("s1", some serverS1)],
    routingRulesIndex := [],
    subscribers := [alice],
    subscriberIndex := [("abcdefghij0123", alice)] }

/-- A subscriber with a valid key who lists a server the document lacks. -/
def carol : Subscriber :=
  { Remarks := "carol", Key := "carolcarol01", VMessServers := ["s9"], RoutingRules := [] }

/-- A file whose first subscriber has a dangling server reference and whose
second subscriber has an invalid key. -/
def danglingThenInvalidDoc : Document :=
  { fields :=
      [ { name := "subscribers", nameErr := none, value := .subscribers [carol.fields, shortKey.fields] } ],
    endErr := none }

/-- A file with two `subscribers` sections, the second of which gives only a key:
`{"subscribers": [{"remarks": "a", "key": "aaaaaaaaaa", "vmessServers": ["s1"]}],`
`"subscribers": [{"key": "bbbbbbbbbb"}]}`. -/
def secondKeyDoc : Document :=
  { fields :=
      [ { name := "subscribers", nameErr := none,
          value := .subscribers [ { Remarks := some "a", Key := some "aaaaaaaaaa",
                                    VMessServers := some ["s1"], RoutingRules := none } ] },
        { name := "subscribers", nameErr := none,
          value := .subscribers [ { Remarks := none, Key := some "bbbbbbbbbb",
                                    VMessServers := none, RoutingRules := none } ] } ],
    endErr := none }

/-- A file with two `subscribers` sections, the second of which gives no key:
`{"subscribers": [{"key": "aaaaaaaaaa"}], "subscribers": [{"remarks": "x"}]}`. -/
def secondRemarksDoc : Document :=
  { fields :=
      [ { name := "subscribers", nameErr := none,
          value := .subscribers [ { Remarks := none, Key := some "aaaaaaaaaa",
                                    VMessServers := none, RoutingRules := none } ] },
        { name := "subscribers", nameErr := none,
          value := .subscribers [ { Remarks := some "x", Key := none,
                                    VMessServers := none, RoutingRules := none } ] } ],
    endErr := none }

/-- The subscriber has a valid key and every id it lists is defined by the
document. -/
def Document.Accepts (d : Document) (s : Subscriber) : Prop :=
  ValidKey s.Key ∧ (∀ id ∈ s.VMessServers, id ∈ d.serverIDs)
    ∧ ∀ id ∈ s.RoutingRules, id ∈ d.rulesIDs

/-- The line of one server id in the list a subscriber is served: the share link
of the server stored under the id, then a line feed. -/
def serverLine (p : Publisher) (vmessServerID : String) : String :=
  match GoMap.get p.vmessServerIndex vmessServerID with
  | some server => (ShareLink server).1 ++ "\n"
  | none => ""

/-- The concatenation of the lines of the listed server ids, in list order. -/
def serverLines (p : Publisher) : List String → String
  | [] => ""
  | vmessServerID :: rest => serverLine p vmessServerID ++ serverLines p rest

/-- Boolean form of `Field.Decodes`. -/
def Field.decodes (f : Field) : Bool :=
  f.nameErr.isNone &&
    ((f.name = "publisher" && f.value.skip.isNone)
      || (f.name = "vmessServers" && (readServers [] f.value).2.isNone)
      || (f.name = "routingRules" && (readRules [] f.value).2.isNone)
      || (f.name = "subscribers" && (readSubscribers [] [] f.value).2.isNone))

/-- Boolean form of `Document.Decodes`. -/
def Document.decodes (d : Document) : Bool :=
  d.endErr.isNone && d.fields.all Field.decodes

/-- The keys of a map. -/
def GoMap.keys {β : Type} (m : GoMap β) : List String :=
  m.map Prod.fst

/-- A subscriber whose first server resolves in `scenarioPub` and whose second
does not. -/
def dave : Subscriber :=
  { Remarks := "dave", Key := "davedavedave", VMessServers := ["s1", "s9"], RoutingRules := [] }

/-- A Publisher whose index holds `dave`, with the server index of the
scenario (which lacks `s9`). -/
def davePub : Publisher :=
  { vmessServerIndex := [("s1", some serverS1)],
    routingRulesIndex := [("r1", some rulesR1)],
    subscribers := [dave],
    subscriberIndex := [("davedavedave", dave)] }

/-- A subscriber who lists no server. -/
def erin : Subscriber :=
  { Remarks := "erin", Key := "erinerinerin", VMessServers := [], RoutingRules := ["r1"] }

/-- A Publisher whose index holds `erin`. -/
def erinPub : Publisher :=
  { vmessServerIndex := [("s1", some serverS1)],
    routingRulesIndex := [("r1", some rulesR1)],
    subscribers := [erin],
    subscriberIndex := [("erinerinerin", erin)] }

/-- The members of the JSON object of a rule, as name and rendered value, in the
order written: a list-valued field and the port are present when not empty, the
outbound tag always. -/
def ruleMembers (r : RoutingRule) : List (String × String) :=
  (if r.Domain.isEmpty then [] else [("domain", writeStrings r.Domain)])
    ++ (if r.IP.isEmpty then [] else [("ip", writeStrings r.IP)])
    ++ (if r.Port.isEmpty then [] else [("port", WriteString r.Port)])
    ++ (if r.Protocol.isEmpty then [] else [("protocol", writeStrings r.Protocol)])
    ++ [("outboundTag", WriteString r.OutboundTag)]

/-- A JSON object written from its members. -/
def writeObject (members : List (String × String)) : String :=
  "\x7b" ++ ",".intercalate (members.map fun m => "\x22" ++ m.1 ++ "\x22:" ++ m.2) ++ "\x7d"

/-- A rule set with a rule that has a domain list and a rule that has nothing
but an empty outbound tag. -/
def rulesR2 : List RoutingRule :=
  [ { Domain := ["a.com", "b.com"], IP := [], Port := "", Protocol := [], OutboundTag := "direct" },
    { Domain := [], IP := [], Port := "", Protocol := [], OutboundTag := "" } ]

/-- A Publisher in which `erin` may read the rule set `r1`, stored as `rulesR2`. -/
def rulesPub : Publisher :=
  { vmessServerIndex := [],
    routingRulesIndex := [("r1", some rulesR2)],
    subscribers := [erin],
    subscriberIndex := [("erinerinerin", erin)] }

/-- A subscriber with a remark and a key that the validator rejects. -/
def mallory : Subscriber :=
  { Remarks := "mallory", Key := "short", VMessServers := [], RoutingRules := [] }

/-- A file whose only subscriber is `mallory`:
`{"subscribers": [{"remarks": "mallory", "key": "short"}]}`. -/
def malloryDoc : Document :=
  { fields := [ { name := "subscribers", nameErr := none, value := .subscribers [mallory.fields] } ],
    endErr := none }

/-! ## Decoders used to state the round trips

These follow the words of the specification (base64-decode, then JSON-decode);
they are not part of the program. -/

namespace base64

/-- The 6-bit value of a character of the standard alphabet. -/
def decodeChar (c : Char) : Option Nat :=
  if encodeStd.data.indexOf c < 64 then some (encodeStd.data.indexOf c) else none

/-- Decoding of padded standard base64: every four characters give three
bytes; the last four may end in one or two `=` and then give two or one. -/
def decodeChars : List Char → Option (List Nat)
  | [] => some []
  | c0 :: c1 :: c2 :: c3 :: rest =>
    match decodeChar c0, decodeChar c1 with
    | some s0, some s1 =>
      if c3 = '=' then
        if rest.isEmpty then
          if c2 = '=' then some [s0 * 4 + s1 / 16]
          else
            match decodeChar c2 with
            | some s2 => some [s0 * 4 + s1 / 16, s1 % 16 * 16 + s2 / 4]
            | none => none
        else none
      else
        match decodeChar c2, decodeChar c3, decodeChars rest with
        | some s2, some s3, some bytes =>
          some ((s0 * 4 + s1 / 16) :: (s1 % 16 * 16 + s2 / 4) :: (s2 % 4 * 64 + s3) :: bytes)
        | _, _, _ => none
    | _, _ => none
  | _ => none

end base64

/-- Reading bytes as UTF-8, one byte at a time: `more` is the number of
continuation bytes the current character still needs and `acc` the value read
so far for it.  `none` when a sequence is cut short or a byte is out of place. -/
def utf8Go : Nat → Nat → List Nat → Option (List Char)
  | 0, _, [] => some []
  | _ + 1, _, [] => none
  | 0, _, b :: rest =>
    if b < 0x80 then (utf8Go 0 0 rest).map (fun cs => Char.ofNat b :: cs)
    else if b < 0xC0 then none
    else if b < 0xE0 then utf8Go 1 (b - 0xC0) rest
    else if b < 0xF0 then utf8Go 2 (b - 0xE0) rest
    else if b < 0xF8 then utf8Go 3 (b - 0xF0) rest
    else none
  | more + 1, acc, b :: rest =>
    if 0x80 ≤ b ∧ b < 0xC0 then
      if more = 0 then
        (utf8Go 0 0 rest).map (fun cs => Char.ofNat (acc * 64 + (b - 0x80)) :: cs)
      else utf8Go more (acc * 64 + (b - 0x80)) rest
    else none

/-- The characters of a byte sequence read as UTF-8. -/
def utf8Decode (bytes : List Nat) : Option (List Char) :=
  utf8Go 0 0 bytes

/-- DecodeString of `base64.StdEncoding`, with the bytes read back as text. -/
def base64.DecodeString (s : String) : Option String :=
  match base64.decodeChars s.data with
  | none => none
  | some bytes => (utf8Decode bytes).map String.mk

namespace json

/-- The value of a hexadecimal digit. -/
def hexVal (c : Char) : Option Nat :=
  if 0x30 ≤ c.toNat ∧ c.toNat ≤ 0x39 then some (c.toNat - 0x30)
  else if 0x61 ≤ c.toNat ∧ c.toNat ≤ 0x66 then some (c.toNat - 0x61 + 10)
  else if 0x41 ≤ c.toNat ∧ c.toNat ≤ 0x46 then some (c.toNat - 0x41 + 10)
  else none

/-- The character a one-letter escape stands for. -/
def unescape (e : Char) : Option Char :=
  if e.toNat = 0x22 then some (Char.ofNat 0x22)
  else if e.toNat = 0x5c then some (Char.ofNat 0x5c)
  else if e.toNat = 0x2f then some (Char.ofNat 0x2f)
  else if e = 'b' then some (Char.ofNat 0x08)
  else if e = 'f' then some (Char.ofNat 0x0c)
  else if e = 'n' then some (Char.ofNat 0x0a)
  else if e = 'r' then some (Char.ofNat 0x0d)
  else if e = 't' then some (Char.ofNat 0x09)
  else none

/-- The rest of a JSON string literal after its opening quote: the characters
it denotes and the input after the closing quote.  A raw control character is
rejected. -/
def readString : List Char → Option (List Char × List Char)
  | [] => none
  | c :: rest =>
    if c.toNat = 0x22 then some ([], rest)
    else if c.toNat = 0x5c then
      match rest with
      | [] => none
      | e :: rest =>
        if e = 'u' then
          match rest with
          | h0 :: h1 :: h2 :: h3 :: rest =>
            match hexVal h0, hexVal h1, hexVal h2, hexVal h3, readString rest with
            | some a, some b, some c, some d, some (s, out) =>
              some (Char.ofNat (a * 4096 + b * 256 + c * 16 + d) :: s, out)
            | _, _, _, _, _ => none
          | _ => none
        else
          match unescape e, readString rest with
          | some ch, some (s, out) => some (ch :: s, out)
          | _, _ => none
    else if c.toNat < 0x20 then none
    else
      match readString rest with
      | some (s, out) => some (c :: s, out)
      | none => none

/-- Input with leading JSON white space removed. -/
def skipWs : List Char → List Char
  | [] => []
  | c :: rest =>
    if c.toNat = 0x20 ∨ c.toNat = 0x0a ∨ c.toNat = 0x0d ∨ c.toNat = 0x09 then skipWs rest
    else c :: rest

/-- The input after optional white space and the given character. -/
def expect (code : Nat) (input : List Char) : Option (List Char) :=
  match skipWs input with
  | c :: rest => if c.toNat = code then some rest else none
  | [] => none

/-- A string literal after optional white space. -/
def readQuoted (input : List Char) : Option (String × List Char) :=
  match expect 0x22 input with
  | none => none
  | some rest =>
    match readString rest with
    | some (s, out) => some (String.mk s, out)
    | none => none

/-- The members `"key": "value"` of an object, separated by commas, up to and
including the closing brace; `fuel` bounds the number of members read. -/
def readMembers : Nat → List Char → Option (List (String × String) × List Char)
  | 0, _ => none
  | fuel + 1, input =>
    match readQuoted input with
    | none => none
    | some (k, r1) =>
      match expect 0x3a r1 with
      | none => none
      | some r2 =>
        match readQuoted r2 with
        | none => none
        | some (v, r3) =>
          match skipWs r3 with
          | [] => none
          | d :: r4 =>
            if d.toNat = 0x2c then
              match readMembers fuel r4 with
              | some (ms, out) => some ((k, v) :: ms, out)
              | none => none
            else if d.toNat = 0x7d then some ([(k, v)], r4)
            else none

/-- A JSON text that is one object whose values are strings, as the list of its
members in order; white space is allowed between tokens and after the object. -/
def readObject (input : List Char) : Option (List (String × String)) :=
  match expect 0x7b input with
  | none => none
  | some r =>
    match expect 0x7d r with
    | some out => if skipWs out = [] then some [] else none
    | none =>
      match readMembers input.length r with
      | some (ms, out) => if skipWs out = [] then some ms else none
      | none => none

end json

/-- The input after the scheme `vmess://`; `none` when it does not start with
it. -/
def dropScheme (l : List Char) : Option (List Char) :=
  if l.take 8 = "vmess://".data then some (l.drop 8) else none

/-- The share link read back: the text after `vmess://` is base64-decoded, and
the bytes are decoded as a JSON object with string values. -/
def decodeShareLink (link : String) : Option (List (String × String)) :=
  (dropScheme link.data).bind fun encoded =>
    (base64.decodeChars encoded).bind fun bytes =>
      (utf8Decode bytes).bind json.readObject

/-- The characters of one object member `"k":"v"` as the JSON stream writes it,
followed by `tail`. -/
def memberChars (k v : List Char) (tail : List Char) : List Char :=
  Char.ofNat 0x22 :: (k.flatMap writeChar ++ Char.ofNat 0x22 :: Char.ofNat 0x3a ::
    Char.ofNat 0x22 :: (v.flatMap writeChar ++ Char.ofNat 0x22 :: tail))

/-- The characters of the members of an object separated by commas, the closing
brace, and `tail`. -/
def membersChars : List (String × String) → List Char → List Char
  | [], tail => Char.ofNat 0x7d :: tail
  | [m], tail => memberChars m.1.data m.2.data (Char.ofNat 0x7d :: tail)
  | m :: m2 :: ms, tail =>
    memberChars m.1.data m.2.data (Char.ofNat 0x2c :: membersChars (m2 :: ms) tail)

/-- The characters of a compact JSON object with string values, followed by
`tail`. -/
def objectChars (ms : List (String × String)) (tail : List Char) : List Char :=
  Char.ofNat 0x7b :: membersChars ms tail

/-- The twelve members of the JSON object of a server, in order. -/
def serverMembers (v : VMessServer) : List (String × String) :=
  [ ("v", v.ConfigVersion), ("ps", v.Remarks), ("add", v.Address), ("port", v.Port),
    ("id", v.ID), ("aid", v.AlterID), ("net", v.Network), ("type", v.HeaderType),
    ("host", v.RequestHost), ("path", v.Path), ("tls", v.StreamSecurity), ("sni", v.SNI) ]

/-! ## Lemmas on maps and on the validation loops -/

theorem GoMap.has_set {β : Type} (m : GoMap β) (k : String) (v : β) (x : String) :
    GoMap.has (GoMap.set m k v) x = true ↔ k = x ∨ GoMap.has m x = true := by
  unfold GoMap.has GoMap.set
  by_cases h : k = x
  · simp [GoMap.get, h]
  · simp [GoMap.get, h]

theorem GoMap.has_setAll {β : Type} (entries : List (String × β)) (m : GoMap β) (x : String) :
    GoMap.has (GoMap.setAll m entries) x = true
      ↔ GoMap.has m x = true ∨ x ∈ entries.map Prod.fst := by
  unfold GoMap.setAll
  induction entries generalizing m with
  | nil => simp
  | cons e rest ih =>
    simp only [List.foldl_cons, List.map_cons, List.mem_cons]
    rw [ih, GoMap.has_set]
    constructor
    · rintro ((h | h) | h)
      · exact Or.inr (Or.inl h.symm)
      · exact Or.inl h
      · exact Or.inr (Or.inr h)
    · rintro (h | h | h)
      · exact Or.inl (Or.inr h)
      · exact Or.inl (Or.inl h.symm)
      · exact Or.inr h

theorem GoMap.has_nil {β : Type} (x : String) : GoMap.has ([] : GoMap β) x = false := rfl

theorem firstMissing_eq_none {β : Type} (index : GoMap β) (ids : List String) :
    firstMissing index ids = none ↔ ∀ id ∈ ids, GoMap.has index id = true := by
  induction ids with
  | nil => simp [firstMissing]
  | cons id rest ih =>
    unfold firstMissing
    by_cases h : GoMap.has index id = true
    · simp [h, ih]
    · simp [h]

theorem firstMissing_eq_some {β : Type} (index : GoMap β) (ids : List String) (id : String)
    (h : firstMissing index ids = some id) : id ∈ ids ∧ GoMap.has index id = false := by
  induction ids with
  | nil => simp [firstMissing] at h
  | cons a rest ih =>
    unfold firstMissing at h
    by_cases ha : GoMap.has index a = true
    · simp only [ha, if_true] at h
      exact ⟨List.mem_cons_of_mem _ (ih h).1, (ih h).2⟩
    · simp only [ha] at h
      simp only [Bool.false_eq_true, if_false, Option.some.injEq] at h
      subst h
      exact ⟨List.mem_cons_self _ _, by simpa using ha⟩

theorem alphanum_iff (s : String) :
    alphanum s = true ↔ s.data ≠ [] ∧ ∀ c ∈ s.data, c.isAlphanum = true := by
  unfold alphanum
  simp only [Bool.and_eq_true, Bool.not_eq_true', List.isEmpty_eq_false, List.all_eq_true]
  apply and_congr Iff.rfl
  apply forall_congr'
  intro c
  apply imp_congr Iff.rfl
  simp only [Char.isAlphanum, Char.isAlpha, Char.isUpper, Char.isLower, Char.isDigit,
    Bool.or_eq_true, Bool.and_eq_true, decide_eq_true_eq, Char.toNat, ge_iff_le,
    UInt32.le_def, Fin.le_def]
  have e1 : (97 : UInt32).val.val = 97 := rfl
  have e2 : (122 : UInt32).val.val = 122 := rfl
  have e3 : (65 : UInt32).val.val = 65 := rfl
  have e4 : (90 : UInt32).val.val = 90 := rfl
  have e5 : (48 : UInt32).val.val = 48 := rfl
  have e6 : (57 : UInt32).val.val = 57 := rfl
  simp only [e1, e2, e3, e4, e5, e6, UInt32.toNat]
  tauto

theorem validateStruct_eq_none (s : Subscriber) :
    validateStruct s = none ↔ ValidKey s.Key := by
  unfold validateStruct ValidKey
  by_cases h1 : 10 ≤ s.Key.length
  · by_cases h2 : s.Key.length ≤ 32
    · by_cases h3 : alphanum s.Key = true
      · have h3b := (alphanum_iff s.Key).1 h3
        simp only [h1, h2, h3, not_true_eq_false, if_false, true_and]
        exact ⟨fun _ => h3b.2, fun _ => trivial⟩
      · have : ¬ ∀ c ∈ s.Key.data, c.isAlphanum = true := by
          intro hall
          apply h3
          rw [alphanum_iff]
          refine ⟨?_, hall⟩
          intro hnil
          have : s.Key.length = 0 := by simp [String.length, hnil]
          omega
        simp [h1, h2, h3, this]
    · simp [h1, h2]
  · simp [h1]

theorem validateStruct_eq_some (s : Subscriber) (e : LoadError) (h : validateStruct s = some e) :
    ∃ tag, e = .invalidKey tag := by
  unfold validateStruct at h
  split_ifs at h <;> exact ⟨_, (Option.some.inj h).symm⟩

theorem validateConfig_eq_findSome (p : Publisher) (subs : List Subscriber) :
    validateConfig p subs = subs.findSome? (checkSubscriber p) := by
  induction subs with
  | nil => rfl
  | cons s rest ih =>
    rw [validateConfig, List.findSome?_cons, ← ih]
    simp only [checkSubscriber]
    cases validateStruct s with
    | some err => rfl
    | none =>
      cases firstMissing p.vmessServerIndex s.VMessServers with
      | some id => rfl
      | none =>
        cases firstMissing p.routingRulesIndex s.RoutingRules with
        | some id => rfl
        | none => rfl

theorem findSome?_append_cons {α β : Type} (f : α → Option β) (pre : List α) (a : α)
    (post : List α) (b : β) (hpre : ∀ x ∈ pre, f x = none) (ha : f a = some b) :
    (pre ++ a :: post).findSome? f = some b := by
  induction pre with
  | nil => simp [List.findSome?_cons, ha]
  | cons x rest ih =>
    have hx : f x = none := hpre x (List.mem_cons_self _ _)
    simp only [List.cons_append, List.findSome?_cons, hx]
    exact ih (fun y hy => hpre y (List.mem_cons_of_mem _ hy))

theorem checkSubscriber_eq_none (p : Publisher) (s : Subscriber) :
    checkSubscriber p s = none ↔
      ValidKey s.Key ∧ (∀ id ∈ s.VMessServers, GoMap.has p.vmessServerIndex id = true)
        ∧ ∀ id ∈ s.RoutingRules, GoMap.has p.routingRulesIndex id = true := by
  rw [← validateStruct_eq_none, ← firstMissing_eq_none, ← firstMissing_eq_none]
  unfold checkSubscriber
  cases validateStruct s with
  | some err => simp
  | none =>
    cases firstMissing p.vmessServerIndex s.VMessServers with
    | some id => simp
    | none =>
      cases firstMissing p.routingRulesIndex s.RoutingRules with
      | some id => simp
      | none => simp

theorem validateConfig_eq_none (p : Publisher) (subs : List Subscriber) :
    validateConfig p subs = none ↔ ∀ s ∈ subs, checkSubscriber p s = none := by
  rw [validateConfig_eq_findSome]
  induction subs with
  | nil => simp
  | cons s rest ih =>
    simp only [List.findSome?_cons, List.mem_cons, forall_eq_or_imp]
    cases h : checkSubscriber p s with
    | some err => simp
    | none => simp [ih]

theorem updateSubscriberIndex_eq_none (subs : List Subscriber) (index : GoMap Subscriber) :
    (updateSubscriberIndex index subs).2 = none ↔
      (∀ s ∈ subs, GoMap.has index s.Key = false) ∧ (subs.map Subscriber.Key).Nodup := by
  induction subs generalizing index with
  | nil => simp [updateSubscriberIndex]
  | cons s rest ih =>
    unfold updateSubscriberIndex
    by_cases h : GoMap.has index s.Key = true
    · simp [h]
    · have hfalse : GoMap.has index s.Key = false := by simpa using h
      rw [if_neg h, ih]
      simp only [List.mem_cons, forall_eq_or_imp, List.map_cons, List.nodup_cons, List.mem_map,
        not_exists, not_and]
      constructor
      · rintro ⟨h1, h2⟩
        refine ⟨⟨hfalse, ?_⟩, ?_, h2⟩
        · intro t ht
          have := h1 t ht
          cases hk : GoMap.has index t.Key with
          | false => rfl
          | true =>
            have : GoMap.has (GoMap.set index s.Key s) t.Key = true :=
              (GoMap.has_set _ _ _ _).2 (Or.inr hk)
            simp_all
        · intro t ht heq
          have := h1 t ht
          have : GoMap.has (GoMap.set index s.Key s) t.Key = true :=
            (GoMap.has_set _ _ _ _).2 (Or.inl heq.symm)
          simp_all
      · rintro ⟨⟨_, h1⟩, h2, h3⟩
        refine ⟨?_, h3⟩
        intro t ht
        cases hk : GoMap.has (GoMap.set index s.Key s) t.Key with
        | false => rfl
        | true =>
          rcases (GoMap.has_set _ _ _ _).1 hk with heq | hin
          · exact absurd heq.symm (h2 t ht)
          · have := h1 t ht
            simp_all

theorem updateSubscriberIndex_error (subs : List Subscriber) (index : GoMap Subscriber)
    (e : LoadError) (h : (updateSubscriberIndex index subs).2 = some e) :
    ∃ s ∈ subs, e = .duplicateKey s.Key := by
  induction subs generalizing index with
  | nil => simp [updateSubscriberIndex] at h
  | cons s rest ih =>
    unfold updateSubscriberIndex at h
    by_cases hk : GoMap.has index s.Key = true
    · rw [if_pos hk] at h
      simp only [Option.some.injEq] at h
      exact ⟨s, List.mem_cons_self _ _, h.symm⟩
    · rw [if_neg hk] at h
      obtain ⟨t, ht, he⟩ := ih _ h
      exact ⟨t, List.mem_cons_of_mem _ ht, he⟩

/-! ## Lemmas on the reading loop -/

theorem readServers_err (m : GoMap (Option VMessServer)) (v : Value)
    (h : (readServers [] v).2 = none) : (readServers m v).2 = none := by
  cases v <;> simp_all [readServers]

theorem readRules_err (m : GoMap (Option (List RoutingRule))) (v : Value)
    (h : (readRules [] v).2 = none) : (readRules m v).2 = none := by
  cases v <;> simp_all [readRules]

theorem readSubscribers_elems_err (l spare : List Subscriber) (elems : List SubscriberFields) :
    (readSubscribers l spare (.subscribers elems)).2 = none := by
  by_cases h : elems.isEmpty <;> simp [readSubscribers, h]

theorem readSubscribers_err (l spare : List Subscriber) (v : Value)
    (h : (readSubscribers [] [] v).2 = none) : (readSubscribers l spare v).2 = none := by
  cases v with
  | subscribers elems => exact readSubscribers_elems_err l spare elems
  | null => rfl
  | servers entries => simp [readSubscribers] at h
  | rules entries => simp [readSubscribers] at h
  | other skipErr => simp [readSubscribers] at h

theorem anyError_none (p : Publisher) (err : Option String) (next : Publisher → LoadResult) :
    anyError p err none next = next p := rfl

theorem anyError_error (p : Publisher) (err iterError : Option String)
    (next : Publisher → LoadResult) (e : LoadError)
    (h : (anyError p err iterError next).outcome = .error e) :
    (iterError = none ∧ (next p).outcome = .error e)
      ∨ (iterError ≠ none ∧ (anyError p err iterError next).pub = p) := by
  unfold anyError at h ⊢
  cases iterError with
  | none => exact Or.inl ⟨rfl, h⟩
  | some x =>
    refine Or.inr ⟨by simp, ?_⟩
    cases callError err <;> rfl

theorem readFields_append (err endErr : Option String) (pre fields : List Field) (p : Publisher)
    (h : ∀ f ∈ pre, f.Decodes) :
    readFields err endErr p none (pre ++ fields)
      = readFields err endErr (pre.foldl decodeField p) none fields := by
  induction pre generalizing p with
  | nil => rfl
  | cons f rest ih =>
    have hf : f.Decodes := h f (List.mem_cons_self _ _)
    have hrest : ∀ g ∈ rest, g.Decodes := fun g hg => h g (List.mem_cons_of_mem _ hg)
    obtain ⟨hname, hcase⟩ := hf
    simp only [List.foldl_cons, List.cons_append]
    rcases hcase with ⟨hn, hv⟩ | ⟨hn, hv⟩ | ⟨hn, hv⟩ | ⟨hn, hv⟩
    · rw [readFields]
      simp [hn, hname, hv, reportError, decodeField, ih _ hrest]
    · rw [readFields]
      simp [hn, hname, readServers_err _ _ hv, reportError, decodeField, anyError, ih _ hrest]
    · rw [readFields]
      simp [hn, hname, readRules_err _ _ hv, reportError, decodeField, anyError, ih _ hrest]
    · rw [readFields]
      simp [hn, hname, readSubscribers_err _ _ _ hv, reportError, decodeField, anyError,
        ih _ hrest]

theorem readFields_decodes (err endErr : Option String) (fields : List Field) (p : Publisher)
    (h : ∀ f ∈ fields, f.Decodes) :
    readFields err endErr p none fields = loadConfigComplete (fields.foldl decodeField p) := by
  have happ := readFields_append err endErr fields [] p h
  rw [List.append_nil] at happ
  rw [happ, readFields]

theorem readFields_failsToDecode (endErr : Option String) (f : Field) (rest : List Field)
    (p : Publisher) (iterError : Option String) (hf : f.FailsToDecode) :
    (readFields none endErr p iterError (f :: rest)).outcome = .panic := by
  have hs1 : ¬ ("vmessServers" = "") := by decide
  have hs2 : ¬ ("vmessServers" = "publisher") := by decide
  have hr1 : ¬ ("routingRules" = "") := by decide
  have hr2 : ¬ ("routingRules" = "publisher") := by decide
  have hr3 : ¬ ("routingRules" = "vmessServers") := by decide
  have hu1 : ¬ ("subscribers" = "") := by decide
  have hu2 : ¬ ("subscribers" = "publisher") := by decide
  have hu3 : ¬ ("subscribers" = "vmessServers") := by decide
  have hu4 : ¬ ("subscribers" = "routingRules") := by decide
  rw [readFields]
  rcases hf with ⟨hn, hv⟩ | ⟨hn, hv⟩ | ⟨hn, hv⟩
  · cases hval : f.value <;> cases iterError <;> cases hne : f.nameErr <;>
      simp_all [readServers, anyError, callError, reportError]
  · cases hval : f.value <;> cases iterError <;> cases hne : f.nameErr <;>
      simp_all [readRules, anyError, callError, reportError]
  · cases hval : f.value with
    | subscribers elems =>
      rw [hval] at hv
      exact absurd (readSubscribers_elems_err _ _ _) hv
    | null =>
      rw [hval] at hv
      exact absurd rfl hv
    | servers entries =>
      cases iterError <;> cases hne : f.nameErr <;>
        simp_all [readSubscribers, anyError, callError, reportError]
    | rules entries =>
      cases iterError <;> cases hne : f.nameErr <;>
        simp_all [readSubscribers, anyError, callError, reportError]
    | other skipErr =>
      cases iterError <;> cases hne : f.nameErr <;>
        simp_all [readSubscribers, anyError, callError, reportError]

theorem decodeField_servers (fields : List Field) (p : Publisher) (acc : List String)
    (h : ∀ x, GoMap.has p.vmessServerIndex x = true ↔ x ∈ acc) (x : String) :
    GoMap.has (fields.foldl decodeField p).vmessServerIndex x = true
      ↔ x ∈ fields.foldl serverIDsAfter acc := by
  induction fields generalizing p acc with
  | nil => exact h x
  | cons f rest ih =>
    simp only [List.foldl_cons]
    apply ih
    intro y
    unfold decodeField serverIDsAfter
    by_cases h1 : f.name = "vmessServers"
    · cases hv : f.value <;>
        simp [h1, readServers, GoMap.has_setAll, GoMap.has_nil, h y]
    · by_cases h2 : f.name = "routingRules"
      · simp [h1, h2, h y]
      · by_cases h3 : f.name = "subscribers"
        · simp [h1, h2, h3, h y]
        · simp [h1, h2, h3, h y]

theorem decodeField_rules (fields : List Field) (p : Publisher) (acc : List String)
    (h : ∀ x, GoMap.has p.routingRulesIndex x = true ↔ x ∈ acc) (x : String) :
    GoMap.has (fields.foldl decodeField p).routingRulesIndex x = true
      ↔ x ∈ fields.foldl rulesIDsAfter acc := by
  induction fields generalizing p acc with
  | nil => exact h x
  | cons f rest ih =>
    simp only [List.foldl_cons]
    apply ih
    intro y
    unfold decodeField rulesIDsAfter
    by_cases h1 : f.name = "vmessServers"
    · have h2 : ¬ f.name = "routingRules" := by rw [h1]; decide
      simp [h1, h y]
    · by_cases h2 : f.name = "routingRules"
      · cases hv : f.value <;>
          simp [h1, h2, readRules, GoMap.has_setAll, GoMap.has_nil, h y]
      · by_cases h3 : f.name = "subscribers"
        · simp [h1, h2, h3, h y]
        · simp [h1, h2, h3, h y]

theorem decodeField_servers_new (d : Document) (x : String) :
    GoMap.has (d.fields.foldl decodeField NewPublisher).vmessServerIndex x = true
      ↔ x ∈ d.serverIDs :=
  decodeField_servers d.fields NewPublisher [] (fun y => by simp [NewPublisher, GoMap.has_nil]) x

theorem decodeField_rules_new (d : Document) (x : String) :
    GoMap.has (d.fields.foldl decodeField NewPublisher).routingRulesIndex x = true
      ↔ x ∈ d.rulesIDs :=
  decodeField_rules d.fields NewPublisher [] (fun y => by simp [NewPublisher, GoMap.has_nil]) x

theorem decodeField_subscribers (fields : List Field) (p : Publisher) :
    ((fields.foldl decodeField p).subscribers, (fields.foldl decodeField p).subscribersSpare)
      = fields.foldl subscribersAfter (p.subscribers, p.subscribersSpare) := by
  induction fields generalizing p with
  | nil => rfl
  | cons f rest ih =>
    simp only [List.foldl_cons]
    rw [ih]
    congr 1
    unfold decodeField subscribersAfter
    by_cases h1 : f.name = "vmessServers"
    · have h3 : ¬ f.name = "subscribers" := by rw [h1]; decide
      simp [h1]
    · by_cases h2 : f.name = "routingRules"
      · have h3 : ¬ f.name = "subscribers" := by rw [h2]; decide
        simp [h1, h2]
      · by_cases h3 : f.name = "subscribers"
        · simp [h1, h2, h3]
        · simp [h1, h2, h3]

theorem decodeField_subscribers_new (d : Document) :
    (d.fields.foldl decodeField NewPublisher).subscribers = d.subscriberList :=
  congrArg Prod.fst (decodeField_subscribers d.fields NewPublisher)

theorem decodeField_subscriberIndex (fields : List Field) (p : Publisher) :
    (fields.foldl decodeField p).subscriberIndex = p.subscriberIndex := by
  induction fields generalizing p with
  | nil => rfl
  | cons f rest ih =>
    simp only [List.foldl_cons]
    rw [ih]
    unfold decodeField
    split_ifs <;> rfl

theorem loadConfigComplete_ok (p : Publisher) :
    (loadConfigComplete p).outcome = .ok ↔
      validateConfig p p.subscribers = none
        ∧ (updateSubscriberIndex p.subscriberIndex p.subscribers).2 = none := by
  unfold loadConfigComplete
  cases h1 : validateConfig p p.subscribers with
  | some err => simp
  | none =>
    rcases h2 : updateSubscriberIndex p.subscriberIndex p.subscribers with ⟨index, _ | err⟩
    · simp
    · simp

theorem loadConfigComplete_error (p : Publisher) (e : LoadError)
    (h : (loadConfigComplete p).outcome = .error e) (hdup : ∀ key, e ≠ .duplicateKey key) :
    (loadConfigComplete p).pub = p := by
  unfold loadConfigComplete at h ⊢
  cases h1 : validateConfig p p.subscribers with
  | some err => simp
  | none =>
    rw [h1] at h
    rcases h2 : updateSubscriberIndex p.subscriberIndex p.subscribers with ⟨index, _ | err⟩
    · rw [h2] at h
      simp at h
    · rw [h2] at h
      simp only [Outcome.error.injEq] at h
      have h3 : (updateSubscriberIndex p.subscriberIndex p.subscribers).2 = some err := by
        rw [h2]
      obtain ⟨s, _, hs⟩ := updateSubscriberIndex_error _ _ _ h3
      exact absurd (h ▸ hs) (hdup s.Key)

theorem loadConfigComplete_validate_error (p : Publisher) (e : LoadError)
    (h : validateConfig p p.subscribers = some e) :
    (loadConfigComplete p).outcome = .error e := by
  unfold loadConfigComplete
  rw [h]

theorem readFields_error_subscriberIndex (err endErr : Option String) (fields : List Field)
    (p : Publisher) (iterError : Option String) (e : LoadError)
    (h : (readFields err endErr p iterError fields).outcome = .error e)
    (hdup : ∀ key, e ≠ .duplicateKey key) :
    (readFields err endErr p iterError fields).pub.subscriberIndex = p.subscriberIndex := by
  induction fields generalizing p iterError with
  | nil =>
    rw [readFields] at h ⊢
    rw [loadConfigComplete_error p e h hdup]
  | cons f rest ih =>
    rw [readFields] at h ⊢
    simp only at h ⊢
    split_ifs at h ⊢ with h0 h1 h2 h3 h4
    · rw [loadConfigComplete_error p e h hdup]
    · exact ih _ _ h
    · rcases anyError_error _ _ _ _ _ h with ⟨hi, hn⟩ | ⟨_, hp⟩
      · rw [hi] at h ⊢
        rw [anyError_none] at h ⊢
        exact ih _ _ h
      · rw [hp]
    · rcases anyError_error _ _ _ _ _ h with ⟨hi, hn⟩ | ⟨_, hp⟩
      · rw [hi] at h ⊢
        rw [anyError_none] at h ⊢
        exact ih _ _ h
      · rw [hp]
    · rcases anyError_error _ _ _ _ _ h with ⟨hi, hn⟩ | ⟨_, hp⟩
      · rw [hi] at h ⊢
        rw [anyError_none] at h ⊢
        exact ih _ _ h
      · rw [hp]
    · rfl

theorem field_decodes_iff (f : Field) : f.decodes = true ↔ f.Decodes := by
  unfold Field.decodes Field.Decodes
  simp [Option.isNone_iff_eq_none, or_assoc]

theorem document_decodes_iff (d : Document) : d.decodes = true ↔ d.Decodes := by
  unfold Document.decodes Document.Decodes
  simp [field_decodes_iff, Option.isNone_iff_eq_none]

theorem loadConfigFile_decodes (d : Document) (hd : d.Decodes) :
    LoadConfigFile NewPublisher (.bytes d)
      = loadConfigComplete (d.fields.foldl decodeField NewPublisher) := by
  unfold LoadConfigFile
  simp only
  rw [readFields_decodes none d.endErr d.fields NewPublisher hd.2]

theorem checkSubscriber_decoded (d : Document) (s : Subscriber) :
    checkSubscriber (d.fields.foldl decodeField NewPublisher) s = none ↔ d.Accepts s := by
  rw [checkSubscriber_eq_none]
  unfold Document.Accepts
  simp only [decodeField_servers_new, decodeField_rules_new]

/-- A second `subscribers` section is decoded into the elements the first one
left: the fields it does not mention keep their values, so the element of
`secondKeyDoc` still lists server `s1` under remark `a`, and that of
`secondRemarksDoc` still has its valid key. -/
theorem loadConfigFile_second_section :
    LoadConfigFile NewPublisher (.bytes secondKeyDoc)
        = { pub := { NewPublisher with
                      subscribers := [ { Remarks := "a", Key := "bbbbbbbbbb",
                                         VMessServers := ["s1"], RoutingRules := [] } ] },
            outcome := .error (.serverNotFound "a" "s1") }
      ∧ (LoadConfigFile NewPublisher (.bytes secondRemarksDoc)).outcome = .ok
      ∧ (LoadConfigFile NewPublisher (.bytes secondRemarksDoc)).pub.subscribers
          = [ { Remarks := "x", Key := "aaaaaaaaaa", VMessServers := [], RoutingRules := [] } ] := by
  refine ⟨?_, ?_, ?_⟩ <;> decide

/-! ## Lemmas on the handlers -/

theorem writeShareLink_encoder (v : Option VMessServer) (w : Encoder) :
    WriteShareLink v w = ({ written := w.written ++ (ShareLink v).1 }, none) := by
  simp [WriteShareLink, ShareLink, Encode, Encoder.Close, Writer.Write, base64.NewEncoder,
    String.append_assoc]

theorem writeServers_ok (p : Publisher) (ids : List String) (w : Encoder)
    (h : ∀ id ∈ ids, GoMap.has p.vmessServerIndex id = true) :
    writeServers p ids w = .ok { written := w.written ++ serverLines p ids } := by
  induction ids generalizing w with
  | nil => simp [writeServers, serverLines]
  | cons id rest ih =>
    have hid : GoMap.has p.vmessServerIndex id = true := h id (List.mem_cons_self _ _)
    have hrest : ∀ x ∈ rest, GoMap.has p.vmessServerIndex x = true :=
      fun x hx => h x (List.mem_cons_of_mem _ hx)
    unfold GoMap.has at hid
    rw [Option.isSome_iff_exists] at hid
    obtain ⟨server, hserver⟩ := hid
    rw [writeServers, hserver]
    simp only [writeShareLink_encoder]
    rw [ih _ hrest]
    simp [serverLines, serverLine, hserver, Writer.Write, String.append_assoc]

theorem publishRoutingRules_not_listed (p : Publisher) (key : String) (subscriber : Subscriber)
    (rulesID : String) (hkey : GoMap.get p.subscriberIndex key = some subscriber)
    (hlist : rulesID ∉ subscriber.RoutingRules) :
    PublishRoutingRulesHandle p key rulesID = NotFound := by
  unfold PublishRoutingRulesHandle
  rw [hkey]
  have hany : subscriber.RoutingRules.any (fun allowedRulesID => allowedRulesID = rulesID)
      = false := by
    rw [List.any_eq_false]
    intro x hx
    simp only [decide_eq_true_eq]
    rintro rfl
    exact hlist hx
  simp only [hany]
  rfl

/-! ## C1: which documents load -/

/-- C1: on a freshly constructed Publisher, a document that decodes without
error under the recognised keys and has at most one `subscribers` section loads
without error if and only if every server id and every rule-set id listed by a
subscriber is defined by the document, the subscriber keys are pairwise
distinct, and every key has 10 to 32 characters, all alphanumeric. -/
theorem loadConfigFile_ok_iff (d : Document) (hd : d.Decodes)
    (_hone : d.subscribersSections ≤ 1) :
    (LoadConfigFile NewPublisher (.bytes d)).outcome = .ok ↔
      (∀ s ∈ d.subscriberList, ∀ id ∈ s.VMessServers, id ∈ d.serverIDs)
        ∧ (∀ s ∈ d.subscriberList, ∀ id ∈ s.RoutingRules, id ∈ d.rulesIDs)
        ∧ (d.subscriberList.map Subscriber.Key).Nodup
        ∧ ∀ s ∈ d.subscriberList, ValidKey s.Key := by
  unfold LoadConfigFile
  simp only
  rw [readFields_decodes none d.endErr d.fields NewPublisher hd.2, loadConfigComplete_ok,
    validateConfig_eq_none, updateSubscriberIndex_eq_none, decodeField_subscriberIndex,
    decodeField_subscribers_new]
  simp only [checkSubscriber_eq_none, decodeField_servers_new, decodeField_rules_new]
  simp only [NewPublisher, GoMap.has_nil, Bool.false_eq_true, implies_true, true_and]
  constructor
  · rintro ⟨h1, h2⟩
    exact ⟨fun s hs => (h1 s hs).2.1, fun s hs => (h1 s hs).2.2, h2, fun s hs => (h1 s hs).1⟩
  · rintro ⟨h1, h2, h3, h4⟩
    exact ⟨fun s hs => ⟨h4 s hs, h1 s hs, h2 s hs⟩, h3⟩

/-- C1 at the scenario of the specification: the document decodes, satisfies the
four conditions and loads. -/
theorem loadConfigFile_ok_iff_witness :
    scenarioDoc.Decodes ∧ scenarioDoc.subscribersSections ≤ 1
      ∧ (LoadConfigFile NewPublisher (.bytes scenarioDoc)).outcome = .ok := by
  have hd : scenarioDoc.Decodes := (document_decodes_iff scenarioDoc).1 (by decide)
  refine ⟨hd, by decide,
    (loadConfigFile_ok_iff scenarioDoc hd (by decide)).2 ⟨?_, ?_, ?_, ?_⟩⟩
  · decide
  · decide
  · decide
  · decide

/-! ## C2: what a failed load leaves behind -/

/-- C2 as stated fails: loading a document in which two subscribers share a key
returns an error and leaves the first subscriber in the subscriber index, and
the corrected document, which loads on a fresh Publisher, is then rejected on
the same Publisher as a duplicate. -/
theorem loadConfigFile_leaves_residue :
    (LoadConfigFile NewPublisher (.bytes duplicateDoc)).outcome
        = .error (.duplicateKey "abcdefghij0123")
      ∧ (LoadConfigFile NewPublisher (.bytes duplicateDoc)).pub.subscriberIndex
        = [("abcdefghij0123", alice)]
      ∧ NewPublisher.subscriberIndex = []
      ∧ (LoadConfigFile NewPublisher (.bytes scenarioDoc)).outcome = .ok
      ∧ (LoadConfigFile (LoadConfigFile NewPublisher (.bytes duplicateDoc)).pub
          (.bytes scenarioDoc)).outcome = .error (.duplicateKey "abcdefghij0123") := by
  decide

/-- C2 as amended: when `LoadConfigFile` returns an error other than the
duplicate-key error, the subscriber index holds exactly the keys it held before
the call; and when the file cannot be read the whole Publisher is what it
was. -/
theorem loadConfigFile_error_keeps_keys (p : Publisher) (file : File)
    (e : LoadError) (h : (LoadConfigFile p file).outcome = .error e)
    (hdup : ∀ key, e ≠ .duplicateKey key) :
    GoMap.keys (LoadConfigFile p file).pub.subscriberIndex = GoMap.keys p.subscriberIndex
      ∧ ∀ err, file = .unreadable err → (LoadConfigFile p file).pub = p := by
  constructor
  · cases file with
    | unreadable err => rfl
    | bytes doc =>
      exact congrArg GoMap.keys
        (readFields_error_subscriberIndex none doc.endErr doc.fields p none e h hdup)
  · rintro err rfl
    rfl

/-- C2 as amended, at a document whose subscriber has a key of one character. -/
theorem loadConfigFile_error_keeps_keys_witness :
    (LoadConfigFile NewPublisher (.bytes invalidKeyDoc)).outcome = .error (.invalidKey "gte")
      ∧ GoMap.keys (LoadConfigFile NewPublisher (.bytes invalidKeyDoc)).pub.subscriberIndex
        = GoMap.keys NewPublisher.subscriberIndex :=
  ⟨by decide,
    (loadConfigFile_error_keeps_keys NewPublisher (.bytes invalidKeyDoc)
      (.invalidKey "gte") (by decide) (by intro key; simp)).1⟩

/-! ## C3: the body of the server list -/

/-- C3 as stated fails in the scenario of the specification: the body served to
`abcdefghij0123` is not the line of `s1` but its base64 encoding, and the link
itself encodes the JSON object together with a trailing line feed. -/
theorem publishServers_scenario_body :
    (LoadConfigFile NewPublisher (.bytes scenarioDoc)).pub = scenarioPub
      ∧ PublishServersHandle scenarioPub "abcdefghij0123" =
        { status := 200,
          body := "dm1lc3M6Ly9leUoySWpvaUlpd2ljSE1pT2lJaUxDSmhaR1FpT2lKbGVHRnRjR3hsTG1OdmJTSXNJbkJ2Y25RaU9pSTBORE1pTENKcFpDSTZJblYxYVdRdE1TSXNJbUZwWkNJNklpSXNJbTVsZENJNkluZHpJaXdpZEhsd1pTSTZJaUlzSW1odmMzUWlPaUlpTENKd1lYUm9Jam9pSWl3aWRHeHpJam9pZEd4eklpd2ljMjVwSWpvaUluMEsK" }
      ∧ (PublishServersHandle scenarioPub "abcdefghij0123").body
        ≠ (ShareLink (some serverS1)).1 ++ "\n"
      ∧ (PublishServersHandle scenarioPub "abcdefghij0123").body
        ≠ "vmess://" ++ base64.EncodeToString
            "\x7b\x22v\x22:\x22\x22,\x22ps\x22:\x22\x22,\x22add\x22:\x22example.com\x22,\x22port\x22:\x22443\x22,\x22id\x22:\x22uuid-1\x22,\x22aid\x22:\x22\x22,\x22net\x22:\x22ws\x22,\x22type\x22:\x22\x22,\x22host\x22:\x22\x22,\x22path\x22:\x22\x22,\x22tls\x22:\x22tls\x22,\x22sni\x22:\x22\x22\x7d"
          ++ "\n" := by
  set_option maxRecDepth 100000 in decide

/-- C3 as amended: for a key of the subscriber index whose listed server ids all
resolve, the reply has status 200 and its body is the base64 encoding (standard
alphabet, padded) of the concatenation, in list order, of each server's share
link followed by one line feed. -/
theorem publishServers_ok (p : Publisher) (key : String) (subscriber : Subscriber)
    (hkey : GoMap.get p.subscriberIndex key = some subscriber)
    (hall : ∀ id ∈ subscriber.VMessServers, GoMap.has p.vmessServerIndex id = true) :
    PublishServersHandle p key =
      { status := 200,
        body := base64.EncodeToString (serverLines p subscriber.VMessServers) } := by
  unfold PublishServersHandle
  rw [hkey]
  simp only
  rw [writeServers_ok p _ _ hall]
  simp [Encoder.Close, Writer.Write, base64.NewEncoder]

/-- C3 as amended, in the scenario: the one listed server resolves and the body
is the encoding of the lines of the subscriber. -/
theorem publishServers_ok_witness :
    GoMap.get scenarioPub.subscriberIndex "abcdefghij0123" = some alice
      ∧ (∀ id ∈ alice.VMessServers, GoMap.has scenarioPub.vmessServerIndex id = true)
      ∧ PublishServersHandle scenarioPub "abcdefghij0123" =
        { status := 200,
          body := base64.EncodeToString (serverLines scenarioPub alice.VMessServers) } :=
  ⟨by decide, by decide,
    publishServers_ok scenarioPub "abcdefghij0123" alice (by decide) (by decide)⟩

/-! ## C4: the share link -/

/-- C4 as stated fails: the share link of the scenario server is not the prefix
followed by the base64 encoding of exactly the JSON object; a line feed is
encoded after the object. -/
theorem shareLink_not_bare_object :
    ShareLink (some serverS1) ≠
        ("vmess://" ++ base64.EncodeToString
          "\x7b\x22v\x22:\x22\x22,\x22ps\x22:\x22\x22,\x22add\x22:\x22example.com\x22,\x22port\x22:\x22443\x22,\x22id\x22:\x22uuid-1\x22,\x22aid\x22:\x22\x22,\x22net\x22:\x22ws\x22,\x22type\x22:\x22\x22,\x22host\x22:\x22\x22,\x22path\x22:\x22\x22,\x22tls\x22:\x22tls\x22,\x22sni\x22:\x22\x22\x7d",
          none)
      ∧ ShareLink (some serverS1) =
        ("vmess://" ++ base64.EncodeToString
          "\x7b\x22v\x22:\x22\x22,\x22ps\x22:\x22\x22,\x22add\x22:\x22example.com\x22,\x22port\x22:\x22443\x22,\x22id\x22:\x22uuid-1\x22,\x22aid\x22:\x22\x22,\x22net\x22:\x22ws\x22,\x22type\x22:\x22\x22,\x22host\x22:\x22\x22,\x22path\x22:\x22\x22,\x22tls\x22:\x22tls\x22,\x22sni\x22:\x22\x22\x7d\n",
          none) := by
  set_option maxRecDepth 100000 in decide

/-- C4 as amended: for every server, `ShareLink` returns no error and the string
`vmess://` followed by the base64 encoding (standard alphabet, padded) of the
compact JSON object with the keys v, ps, add, port, id, aid, net, type, host,
path, tls, sni in this order, each bound to the corresponding field as a JSON
string and each present also when empty, followed by one line feed. -/
theorem shareLink_eq (v : VMessServer) :
    ShareLink (some v) =
      ("vmess://" ++ base64.EncodeToString
        ("\x7b\x22v\x22:" ++ WriteString v.ConfigVersion
          ++ ",\x22ps\x22:" ++ WriteString v.Remarks
          ++ ",\x22add\x22:" ++ WriteString v.Address
          ++ ",\x22port\x22:" ++ WriteString v.Port
          ++ ",\x22id\x22:" ++ WriteString v.ID
          ++ ",\x22aid\x22:" ++ WriteString v.AlterID
          ++ ",\x22net\x22:" ++ WriteString v.Network
          ++ ",\x22type\x22:" ++ WriteString v.HeaderType
          ++ ",\x22host\x22:" ++ WriteString v.RequestHost
          ++ ",\x22path\x22:" ++ WriteString v.Path
          ++ ",\x22tls\x22:" ++ WriteString v.StreamSecurity
          ++ ",\x22sni\x22:" ++ WriteString v.SNI ++ "\x7d" ++ "\n"),
        none) := by
  have e (a b c d r : String) (h : a ++ b ++ c ++ d = r) (x : String) :
      a ++ (b ++ (c ++ (d ++ x))) = r ++ x := by
    rw [← h]
    simp only [String.append_assoc]
  have e0 := e "\x7b" "\x22" "v" "\x22:" "\x7b\x22v\x22:" rfl
  have e1 := e "," "\x22" "ps" "\x22:" ",\x22ps\x22:" rfl
  have e2 := e "," "\x22" "add" "\x22:" ",\x22add\x22:" rfl
  have e3 := e "," "\x22" "port" "\x22:" ",\x22port\x22:" rfl
  have e4 := e "," "\x22" "id" "\x22:" ",\x22id\x22:" rfl
  have e5 := e "," "\x22" "aid" "\x22:" ",\x22aid\x22:" rfl
  have e6 := e "," "\x22" "net" "\x22:" ",\x22net\x22:" rfl
  have e7 := e "," "\x22" "type" "\x22:" ",\x22type\x22:" rfl
  have e8 := e "," "\x22" "host" "\x22:" ",\x22host\x22:" rfl
  have e9 := e "," "\x22" "path" "\x22:" ",\x22path\x22:" rfl
  have e10 := e "," "\x22" "tls" "\x22:" ",\x22tls\x22:" rfl
  have e11 := e "," "\x22" "sni" "\x22:" ",\x22sni\x22:" rfl
  simp only [ShareLink, WriteShareLink, Encode, Encoder.Close, Writer.Write, base64.NewEncoder,
    marshalServer, marshalVMessServer, writeField, String.intercalate, String.intercalate.go,
    String.append_assoc, String.empty_append, e0, e1, e2, e3, e4, e5, e6, e7, e8, e9, e10, e11]

/-! ## C5: the replies of the rule-set handler -/

/-- C5 as stated fails: a subscriber who lists `r1` while `r1` is not a key of
the rule-set index is answered 500, not 404. -/
theorem publishRoutingRules_missing_is_500 :
    GoMap.get orphanPub.subscriberIndex "abcdefghij0123" = some alice
      ∧ "r1" ∈ alice.RoutingRules
      ∧ GoMap.has orphanPub.routingRulesIndex "r1" = false
      ∧ PublishRoutingRulesHandle orphanPub "abcdefghij0123" "r1" = InternalServerError
      ∧ InternalServerError.status = 500
      ∧ InternalServerError ≠ NotFound := by
  decide

/-- C5 as amended: for a subscriber of the subscriber index and a rule-set id,
the reply is 200 with the serialised rule set stored under the id if and only if
the id occurs in the subscriber's list and is a key of the rule-set index; it is
the 404 not-found reply when the id does not occur in the list, and the 500
reply when the id occurs in the list but is not a key of the index. -/
theorem publishRoutingRules_cases (p : Publisher) (key : String) (subscriber : Subscriber)
    (rulesID : String) (hkey : GoMap.get p.subscriberIndex key = some subscriber) :
    ((PublishRoutingRulesHandle p key rulesID).status = 200 ↔
        rulesID ∈ subscriber.RoutingRules ∧ GoMap.has p.routingRulesIndex rulesID = true)
      ∧ (∀ rules, rulesID ∈ subscriber.RoutingRules →
          GoMap.get p.routingRulesIndex rulesID = some rules →
          PublishRoutingRulesHandle p key rulesID = { status := 200, body := (Marshal rules).1 })
      ∧ (rulesID ∉ subscriber.RoutingRules → PublishRoutingRulesHandle p key rulesID = NotFound)
      ∧ (rulesID ∈ subscriber.RoutingRules → GoMap.has p.routingRulesIndex rulesID = false →
          PublishRoutingRulesHandle p key rulesID = InternalServerError) := by
  unfold PublishRoutingRulesHandle
  rw [hkey]
  simp only
  by_cases hmem : rulesID ∈ subscriber.RoutingRules
  · have hany : subscriber.RoutingRules.any (fun allowedRulesID => allowedRulesID = rulesID)
        = true := by
      simpa using hmem
    rw [hany]
    cases hget : GoMap.get p.routingRulesIndex rulesID with
    | none => simp [hmem, GoMap.has, hget, InternalServerError]
    | some rules => cases rules <;> simp [hmem, GoMap.has, hget, Marshal]
  · have hany : subscriber.RoutingRules.any (fun allowedRulesID => allowedRulesID = rulesID)
        = false := by
      rw [List.any_eq_false]
      intro x hx
      simp only [decide_eq_true_eq]
      rintro rfl
      exact hmem hx
    rw [hany]
    simp [hmem, NotFound]

/-- C5 as amended, in the scenario: `alice` asking for `r1` is served the rule
set. -/
theorem publishRoutingRules_cases_witness :
    GoMap.get scenarioPub.subscriberIndex "abcdefghij0123" = some alice
      ∧ PublishRoutingRulesHandle scenarioPub "abcdefghij0123" "r1"
        = { status := 200, body := (Marshal (some rulesR1)).1 } :=
  ⟨by decide,
    (publishRoutingRules_cases scenarioPub "abcdefghij0123" alice "r1" (by decide)).2.1
      (some rulesR1) (by decide) (by decide)⟩

/-! ## C6: a section that does not decode -/

/-- Every file in which a section fails to decode, after members that read
without error, makes `LoadConfigFile` panic. -/
theorem loadConfigFile_failsToDecode (p : Publisher) (pre : List Field) (f : Field)
    (rest : List Field) (endErr : Option String) (hpre : ∀ g ∈ pre, g.Decodes)
    (hf : f.FailsToDecode) :
    (LoadConfigFile p (.bytes { fields := pre ++ f :: rest, endErr := endErr })).outcome
      = .panic := by
  unfold LoadConfigFile
  simp only
  rw [readFields_append none endErr pre (f :: rest) p hpre]
  exact readFields_failsToDecode endErr f rest _ none hf

/-- C6 fails on the code: on the file `{"vmessServers": 5}` the section does not
decode and `LoadConfigFile` panics instead of returning the decoder error. -/
theorem loadConfigFile_badSection_panics :
    (readServers NewPublisher.vmessServerIndex (Value.other none)).2 ≠ none
      ∧ (LoadConfigFile NewPublisher (.bytes badSectionDoc)).outcome = .panic := by
  decide

/-! ## C7: input that is not a well-formed object -/

/-- C7 fails on the code: a file holding a JSON array, and a file cut off after
the skipped `publisher` section, both load without error on a fresh Publisher,
although the iterator has reported an error. -/
theorem loadConfigFile_malformed_ok :
    arrayDoc.endErr ≠ none
      ∧ (LoadConfigFile NewPublisher (.bytes arrayDoc)).outcome = .ok
      ∧ truncatedDoc.endErr ≠ none
      ∧ (LoadConfigFile NewPublisher (.bytes truncatedDoc)).outcome = .ok := by
  decide

/-! ## C8: unrecognised keys -/

/-- An unrecognised key that is not the empty string, after members that read
without error, stops the load with the unknown-field error, whose message
contains the key. -/
theorem loadConfigFile_unknownField (p : Publisher) (pre : List Field) (f : Field)
    (rest : List Field) (endErr : Option String) (hpre : ∀ g ∈ pre, g.Decodes)
    (h0 : f.name ≠ "") (h1 : f.name ≠ "publisher") (h2 : f.name ≠ "vmessServers")
    (h3 : f.name ≠ "routingRules") (h4 : f.name ≠ "subscribers") :
    (LoadConfigFile p (.bytes { fields := pre ++ f :: rest, endErr := endErr })).outcome
        = .error (.unknownField f.name)
      ∧ (LoadError.unknownField f.name).Error
        = "Parse config error: Unknown config field \x27" ++ f.name ++ "\x27" := by
  refine ⟨?_, rfl⟩
  unfold LoadConfigFile
  simp only
  rw [readFields_append none endErr pre (f :: rest) p hpre, readFields]
  simp [h0, h1, h2, h3, h4]

/-- C8 fails on the code: the empty string is a key other than the four
recognised ones, yet a file whose first key is empty loads without error; the
`subscribers` section behind it, with its invalid key, is never read. -/
theorem loadConfigFile_emptyKey_ok :
    LoadConfigFile NewPublisher (.bytes emptyKeyDoc)
      = { pub := NewPublisher, outcome := .ok } := by
  decide

/-! ## C9: which error is reported -/

/-- C9 as stated fails: with a first subscriber whose key is valid but who lists
a missing server, and a second subscriber whose key is invalid, the error is the
dangling-server error of the first subscriber, not an invalid-key error. -/
theorem loadConfigFile_dangling_before_invalid :
    danglingThenInvalidDoc.subscribersSections = 1
      ∧ danglingThenInvalidDoc.subscriberList = [carol, shortKey]
      ∧ ValidKey carol.Key
      ∧ ¬ ValidKey shortKey.Key
      ∧ (LoadConfigFile NewPublisher (.bytes danglingThenInvalidDoc)).outcome
        = .error (.serverNotFound "carol" "s9") := by
  decide

/-- C9 as amended: for a document that decodes and has at most one
`subscribers` section, loaded on a fresh Publisher, the error is that of the
first subscriber in list order who has an invalid key or a dangling reference,
and for that subscriber the invalid key comes before a missing server id, which
comes before a missing rule-set id; when no subscriber has either and two
subscribers share a key, the error is the duplicate-key error. -/
theorem loadConfigFile_error_order (d : Document) (hd : d.Decodes)
    (_hone : d.subscribersSections ≤ 1) :
    (∀ pre s post, d.subscriberList = pre ++ s :: post → (∀ t ∈ pre, d.Accepts t) →
        (¬ ValidKey s.Key →
          ∃ tag, (LoadConfigFile NewPublisher (.bytes d)).outcome = .error (.invalidKey tag))
        ∧ (ValidKey s.Key → (∃ id ∈ s.VMessServers, id ∉ d.serverIDs) →
          ∃ id ∈ s.VMessServers, id ∉ d.serverIDs ∧
            (LoadConfigFile NewPublisher (.bytes d)).outcome
              = .error (.serverNotFound s.Remarks id))
        ∧ (ValidKey s.Key → (∀ id ∈ s.VMessServers, id ∈ d.serverIDs) →
          (∃ id ∈ s.RoutingRules, id ∉ d.rulesIDs) →
          ∃ id ∈ s.RoutingRules, id ∉ d.rulesIDs ∧
            (LoadConfigFile NewPublisher (.bytes d)).outcome
              = .error (.rulesNotFound s.Remarks id)))
      ∧ ((∀ t ∈ d.subscriberList, d.Accepts t) →
          ¬ (d.subscriberList.map Subscriber.Key).Nodup →
          ∃ t ∈ d.subscriberList,
            (LoadConfigFile NewPublisher (.bytes d)).outcome = .error (.duplicateKey t.Key)) := by
  rw [loadConfigFile_decodes d hd]
  generalize hP : d.fields.foldl decodeField NewPublisher = P
  have hsubs : P.subscribers = d.subscriberList := by
    rw [← hP]
    exact decodeField_subscribers_new d
  have hservers : ∀ x, GoMap.has P.vmessServerIndex x = true ↔ x ∈ d.serverIDs := by
    intro x
    rw [← hP]
    exact decodeField_servers_new d x
  have hrules : ∀ x, GoMap.has P.routingRulesIndex x = true ↔ x ∈ d.rulesIDs := by
    intro x
    rw [← hP]
    exact decodeField_rules_new d x
  have hcheck : ∀ s, checkSubscriber P s = none ↔ d.Accepts s := by
    intro s
    rw [← hP]
    exact checkSubscriber_decoded d s
  constructor
  · intro pre s post hlist hpre
    have hfirst : ∀ e, checkSubscriber P s = some e → (loadConfigComplete P).outcome = .error e := by
      intro e he
      apply loadConfigComplete_validate_error
      rw [validateConfig_eq_findSome, hsubs, hlist]
      exact findSome?_append_cons _ pre s post e (fun t ht => (hcheck t).2 (hpre t ht)) he
    refine ⟨?_, ?_, ?_⟩
    · intro hkey
      cases hv : validateStruct s with
      | none => exact absurd ((validateStruct_eq_none s).1 hv) hkey
      | some e =>
        obtain ⟨tag, rfl⟩ := validateStruct_eq_some s e hv
        exact ⟨tag, hfirst _ (by simp [checkSubscriber, hv])⟩
    · intro hkey hmiss
      have hv := (validateStruct_eq_none s).2 hkey
      cases hm : firstMissing P.vmessServerIndex s.VMessServers with
      | none =>
        obtain ⟨id, hid, hnot⟩ := hmiss
        exact absurd ((hservers id).1 ((firstMissing_eq_none _ _).1 hm id hid)) hnot
      | some id =>
        have hid := firstMissing_eq_some _ _ _ hm
        refine ⟨id, hid.1, ?_, hfirst _ (by simp [checkSubscriber, hv, hm])⟩
        intro hin
        have := (hservers id).2 hin
        rw [hid.2] at this
        exact Bool.false_ne_true this
    · intro hkey hall hmiss
      have hv := (validateStruct_eq_none s).2 hkey
      have hm1 : firstMissing P.vmessServerIndex s.VMessServers = none :=
        (firstMissing_eq_none _ _).2 (fun id hid => (hservers id).2 (hall id hid))
      cases hm : firstMissing P.routingRulesIndex s.RoutingRules with
      | none =>
        obtain ⟨id, hid, hnot⟩ := hmiss
        exact absurd ((hrules id).1 ((firstMissing_eq_none _ _).1 hm id hid)) hnot
      | some id =>
        have hid := firstMissing_eq_some _ _ _ hm
        refine ⟨id, hid.1, ?_, hfirst _ (by simp [checkSubscriber, hv, hm1, hm])⟩
        intro hin
        have := (hrules id).2 hin
        rw [hid.2] at this
        exact Bool.false_ne_true this
  · intro hall hdup
    have hval : validateConfig P P.subscribers = none := by
      rw [validateConfig_eq_none, hsubs]
      exact fun s hs => (hcheck s).2 (hall s hs)
    unfold loadConfigComplete
    rw [hval]
    simp only
    rcases hu : updateSubscriberIndex P.subscriberIndex P.subscribers with ⟨index, _ | err⟩
    · exfalso
      apply hdup
      have h2 : (updateSubscriberIndex P.subscriberIndex P.subscribers).2 = none := by rw [hu]
      rw [updateSubscriberIndex_eq_none, hsubs] at h2
      exact h2.2
    · have h2 : (updateSubscriberIndex P.subscriberIndex P.subscribers).2 = some err := by rw [hu]
      obtain ⟨t, ht, he⟩ := updateSubscriberIndex_error _ _ _ h2
      rw [hsubs] at ht
      exact ⟨t, ht, by simp [he]⟩

/-- C9 as amended, at the document whose first subscriber lists a missing server
and whose second subscriber has an invalid key. -/
theorem loadConfigFile_error_order_witness :
    danglingThenInvalidDoc.Decodes
      ∧ danglingThenInvalidDoc.subscribersSections ≤ 1
      ∧ ∃ id ∈ carol.VMessServers, id ∉ danglingThenInvalidDoc.serverIDs ∧
        (LoadConfigFile NewPublisher (.bytes danglingThenInvalidDoc)).outcome
          = .error (.serverNotFound carol.Remarks id) :=
  have hd : danglingThenInvalidDoc.Decodes :=
    (document_decodes_iff danglingThenInvalidDoc).1 (by decide)
  ⟨hd, by decide,
    ((loadConfigFile_error_order danglingThenInvalidDoc hd (by decide)).1 [] carol [shortKey]
      rfl (by simp)).2.1 (by decide) ⟨"s9", by decide, by decide⟩⟩

/-! ## C10: an unauthorised request does not observe the rule-set index -/

/-- C10: for a subscriber of the subscriber index and a rule-set id that does not
occur in the subscriber's list, the reply is the 404 not-found reply and stays
the same, status and body, when the rule-set index is replaced by any other. -/
theorem publishRoutingRules_unauthorised (p : Publisher)
    (index : GoMap (Option (List RoutingRule))) (key : String) (subscriber : Subscriber)
    (rulesID : String) (hkey : GoMap.get p.subscriberIndex key = some subscriber)
    (hlist : rulesID ∉ subscriber.RoutingRules) :
    PublishRoutingRulesHandle p key rulesID
        = PublishRoutingRulesHandle { p with routingRulesIndex := index } key rulesID
      ∧ PublishRoutingRulesHandle p key rulesID
        = { status := 404, body := "404 page not found\n" } := by
  have hp := publishRoutingRules_not_listed p key subscriber rulesID hkey hlist
  have hq := publishRoutingRules_not_listed { p with routingRulesIndex := index } key subscriber
    rulesID hkey hlist
  exact ⟨hp.trans hq.symm, hp⟩

/-- C10 in the scenario: `alice` asking for `r2` gets the same 404 whether the
rule-set index holds `r2` or not. -/
theorem publishRoutingRules_unauthorised_witness :
    GoMap.get scenarioPub.subscriberIndex "abcdefghij0123" = some alice
      ∧ "r2" ∉ alice.RoutingRules
      ∧ GoMap.has scenarioPub.routingRulesIndex "r2" = false
      ∧ PublishRoutingRulesHandle scenarioPub "abcdefghij0123" "r2"
        = PublishRoutingRulesHandle
            { scenarioPub with routingRulesIndex := [("r2", some rulesR1)] }
            "abcdefghij0123" "r2"
      ∧ PublishRoutingRulesHandle scenarioPub "abcdefghij0123" "r2"
        = { status := 404, body := "404 page not found\n" } :=
  have h := publishRoutingRules_unauthorised scenarioPub [("r2", some rulesR1)]
    "abcdefghij0123" alice "r2" (by decide) (by decide)
  ⟨by decide, by decide, by decide, h.1, h.2⟩

/-! ## Lemmas on the Publisher after a load -/

theorem GoMap.get_set {β : Type} (m : GoMap β) (k : String) (v : β) (x : String) :
    GoMap.get (GoMap.set m k v) x = if k = x then some v else GoMap.get m x := by
  simp [GoMap.set, GoMap.get]

theorem updateSubscriberIndex_keeps (subs : List Subscriber) (index : GoMap Subscriber)
    (k : String) (v : Subscriber) (h : GoMap.get index k = some v) :
    GoMap.get (updateSubscriberIndex index subs).1 k = some v := by
  induction subs generalizing index with
  | nil => simpa [updateSubscriberIndex] using h
  | cons s rest ih =>
    unfold updateSubscriberIndex
    by_cases hk : GoMap.has index s.Key = true
    · rw [if_pos hk]
      exact h
    · rw [if_neg hk]
      apply ih
      rw [GoMap.get_set]
      by_cases heq : s.Key = k
      · exfalso
        apply hk
        rw [heq]
        simp [GoMap.has, h]
      · rw [if_neg heq]
        exact h

theorem updateSubscriberIndex_get (subs : List Subscriber) (index : GoMap Subscriber)
    (k : String) (v : Subscriber)
    (h : GoMap.get (updateSubscriberIndex index subs).1 k = some v) :
    GoMap.get index k = some v ∨ (v ∈ subs ∧ v.Key = k) := by
  induction subs generalizing index with
  | nil => exact Or.inl (by simpa [updateSubscriberIndex] using h)
  | cons s rest ih =>
    unfold updateSubscriberIndex at h
    by_cases hk : GoMap.has index s.Key = true
    · rw [if_pos hk] at h
      exact Or.inl h
    · rw [if_neg hk] at h
      rcases ih _ h with h1 | ⟨h1, h2⟩
      · rw [GoMap.get_set] at h1
        by_cases heq : s.Key = k
        · rw [if_pos heq] at h1
          have hv : s = v := Option.some.inj h1
          exact Or.inr ⟨by rw [← hv]; exact List.mem_cons_self _ _, by rw [← hv]; exact heq⟩
        · rw [if_neg heq] at h1
          exact Or.inl h1
      · exact Or.inr ⟨List.mem_cons_of_mem _ h1, h2⟩

theorem updateSubscriberIndex_mem (subs : List Subscriber) (index : GoMap Subscriber)
    (h : (updateSubscriberIndex index subs).2 = none) (s : Subscriber) (hs : s ∈ subs) :
    GoMap.get (updateSubscriberIndex index subs).1 s.Key = some s := by
  induction subs generalizing index with
  | nil => simp at hs
  | cons a rest ih =>
    unfold updateSubscriberIndex at h ⊢
    by_cases hk : GoMap.has index a.Key = true
    · rw [if_pos hk] at h
      simp at h
    · rw [if_neg hk] at h ⊢
      rcases List.mem_cons.1 hs with rfl | hrest
      · apply updateSubscriberIndex_keeps
        rw [GoMap.get_set, if_pos rfl]
      · exact ih _ h hrest

theorem loadConfigComplete_ok_pub (p : Publisher) (h : (loadConfigComplete p).outcome = .ok) :
    validateConfig p p.subscribers = none
      ∧ (updateSubscriberIndex p.subscriberIndex p.subscribers).2 = none
      ∧ (loadConfigComplete p).pub
        = { p with subscriberIndex := (updateSubscriberIndex p.subscriberIndex p.subscribers).1 } := by
  unfold loadConfigComplete at h ⊢
  cases h1 : validateConfig p p.subscribers with
  | some err =>
    rw [h1] at h
    simp at h
  | none =>
    rw [h1] at h
    rcases h2 : updateSubscriberIndex p.subscriberIndex p.subscribers with ⟨index, _ | err⟩
    · simp
    · rw [h2] at h
      simp at h

theorem anyError_ok (p : Publisher) (err iterError : Option String)
    (next : Publisher → LoadResult) (h : (anyError p err iterError next).outcome = .ok) :
    anyError p err iterError next = next p := by
  unfold anyError at h ⊢
  cases iterError with
  | none => rfl
  | some x =>
    simp only at h
    cases hc : callError err <;> rw [hc] at h <;> simp at h

theorem readFields_ok (err endErr : Option String) (fields : List Field) (p : Publisher)
    (iterError : Option String) (h : (readFields err endErr p iterError fields).outcome = .ok) :
    ∃ q, readFields err endErr p iterError fields = loadConfigComplete q
      ∧ q.subscriberIndex = p.subscriberIndex := by
  induction fields generalizing p iterError with
  | nil => exact ⟨p, by rw [readFields], rfl⟩
  | cons f rest ih =>
    rw [readFields] at h ⊢
    simp only at h ⊢
    split_ifs at h ⊢ with h0 h1 h2 h3 h4
    · exact ⟨p, rfl, rfl⟩
    · exact ih _ _ h
    · have e := anyError_ok _ _ _ _ h
      rw [e] at h ⊢
      obtain ⟨q, hq, hidx⟩ := ih _ _ h
      exact ⟨q, hq, hidx⟩
    · have e := anyError_ok _ _ _ _ h
      rw [e] at h ⊢
      obtain ⟨q, hq, hidx⟩ := ih _ _ h
      exact ⟨q, hq, hidx⟩
    · have e := anyError_ok _ _ _ _ h
      rw [e] at h ⊢
      obtain ⟨q, hq, hidx⟩ := ih _ _ h
      exact ⟨q, hq, hidx⟩

/-- After a load that succeeds on a fresh Publisher: the Publisher is some
state `q` with its subscriber index filled from its subscriber list, every
subscriber of `q` passes the checks, and no key repeats. -/
theorem loadConfigFile_ok_pub (file : File)
    (h : (LoadConfigFile NewPublisher file).outcome = .ok) :
    ∃ q : Publisher, q.subscriberIndex = []
      ∧ (∀ s ∈ q.subscribers, checkSubscriber q s = none)
      ∧ (updateSubscriberIndex [] q.subscribers).2 = none
      ∧ (LoadConfigFile NewPublisher file).pub
        = { q with subscriberIndex := (updateSubscriberIndex [] q.subscribers).1 } := by
  cases file with
  | unreadable err => simp [LoadConfigFile] at h
  | bytes doc =>
    unfold LoadConfigFile at h ⊢
    simp only at h ⊢
    obtain ⟨q, hq, hidx⟩ := readFields_ok _ _ _ _ _ h
    rw [hq] at h ⊢
    have hidx0 : q.subscriberIndex = [] := hidx
    obtain ⟨h1, h2, h3⟩ := loadConfigComplete_ok_pub q h
    rw [hidx0] at h2 h3
    exact ⟨q, hidx0, (validateConfig_eq_none q q.subscribers).1 h1, h2, h3⟩

theorem writeServers_missing (p : Publisher) (ids : List String) (w : Encoder)
    (h : ∃ id ∈ ids, GoMap.has p.vmessServerIndex id = false) :
    writeServers p ids w = .error InternalServerError := by
  induction ids generalizing w with
  | nil =>
    obtain ⟨id, hid, _⟩ := h
    simp at hid
  | cons a rest ih =>
    rw [writeServers]
    cases hget : GoMap.get p.vmessServerIndex a with
    | none => rfl
    | some server =>
      simp only [writeShareLink_encoder]
      apply ih
      obtain ⟨id, hid, hmiss⟩ := h
      rcases List.mem_cons.1 hid with rfl | hrest
      · simp [GoMap.has, hget] at hmiss
      · exact ⟨id, hrest, hmiss⟩

theorem marshalRoutingRule_eq (r : RoutingRule) :
    marshalRoutingRule r = writeObject (ruleMembers r) := by
  have e1 : "\x22" ++ "domain" ++ "\x22:" = "\x22domain\x22:" := rfl
  have e2 : "\x22" ++ "ip" ++ "\x22:" = "\x22ip\x22:" := rfl
  have e3 : "\x22" ++ "protocol" ++ "\x22:" = "\x22protocol\x22:" := rfl
  unfold marshalRoutingRule writeObject ruleMembers
  congr 2
  by_cases h1 : r.Domain.isEmpty <;> by_cases h2 : r.IP.isEmpty <;>
    by_cases h3 : r.Port.isEmpty <;> by_cases h4 : r.Protocol.isEmpty <;>
    simp [h1, h2, h3, h4, writeField, e1, e2, e3]

theorem shareLink_some (v : Option VMessServer) :
    ShareLink v = ("vmess://" ++ base64.EncodeToString (marshalServer v ++ "\n"), none) := by
  simp [ShareLink, WriteShareLink, Encode, Encoder.Close, Writer.Write, base64.NewEncoder]

/-! ## Lemmas on the decoders -/

theorem base64.decodeChar_encode : ∀ i, i < 64 → base64.decodeChar (base64.encode i) = some i := by
  set_option maxRecDepth 100000 in decide

theorem base64.encode_ne_pad : ∀ i, i < 64 → base64.encode i ≠ '=' := by
  set_option maxRecDepth 100000 in decide

theorem base64.decodeChars_encodeBytes :
    ∀ bs : List Nat, (∀ b ∈ bs, b < 256) →
      base64.decodeChars (base64.encodeBytes bs) = some bs
  | [], _ => rfl
  | [a], h => by
    have ha : a < 256 := h a (by simp)
    have h0 : a * 65536 / 262144 % 64 < 64 := Nat.mod_lt _ (by decide)
    have h1 : a * 65536 / 4096 % 64 < 64 := Nat.mod_lt _ (by decide)
    simp only [base64.encodeBytes, base64.decodeChars, base64.decodeChar_encode _ h0,
      base64.decodeChar_encode _ h1, if_true, List.isEmpty_nil]
    congr 2
    omega
  | [a, b], h => by
    have ha : a < 256 := h a (by simp)
    have hb : b < 256 := h b (by simp)
    have h0 : (a * 65536 + b * 256) / 262144 % 64 < 64 := Nat.mod_lt _ (by decide)
    have h1 : (a * 65536 + b * 256) / 4096 % 64 < 64 := Nat.mod_lt _ (by decide)
    have h2 : (a * 65536 + b * 256) / 64 % 64 < 64 := Nat.mod_lt _ (by decide)
    simp only [base64.encodeBytes, base64.decodeChars, base64.decodeChar_encode _ h0,
      base64.decodeChar_encode _ h1, base64.decodeChar_encode _ h2, if_true, List.isEmpty_nil,
      base64.encode_ne_pad _ h2, if_false]
    congr 2
    · omega
    · congr 1
      omega
  | a :: b :: c :: rest, h => by
    have ha : a < 256 := h a (by simp)
    have hb : b < 256 := h b (by simp)
    have hc : c < 256 := h c (by simp)
    have hrest : ∀ x ∈ rest, x < 256 := fun x hx => h x (by simp [hx])
    have ih := base64.decodeChars_encodeBytes rest hrest
    have h0 : (a * 65536 + b * 256 + c) / 262144 % 64 < 64 := Nat.mod_lt _ (by decide)
    have h1 : (a * 65536 + b * 256 + c) / 4096 % 64 < 64 := Nat.mod_lt _ (by decide)
    have h2 : (a * 65536 + b * 256 + c) / 64 % 64 < 64 := Nat.mod_lt _ (by decide)
    have h3 : (a * 65536 + b * 256 + c) % 64 < 64 := Nat.mod_lt _ (by decide)
    simp only [base64.encodeBytes, base64.decodeChars, base64.decodeChar_encode _ h0,
      base64.decodeChar_encode _ h1, base64.decodeChar_encode _ h2,
      base64.decodeChar_encode _ h3, base64.encode_ne_pad _ h3, if_false, ih]
    congr 2
    · omega
    · congr 1
      · omega
      · congr 1
        omega

theorem char_toNat_valid (c : Char) :
    c.toNat < 0xd800 ∨ (0xdfff < c.toNat ∧ c.toNat < 0x110000) := by
  have h := c.valid
  simpa [UInt32.isValidChar, Nat.isValidChar, Char.toNat] using h

theorem utf8Bytes_lt (c : Char) : ∀ b ∈ utf8Bytes c, b < 256 := by
  have hv := char_toNat_valid c
  intro b hb
  unfold utf8Bytes at hb
  simp only at hb
  split_ifs at hb
  · rcases List.mem_singleton.1 hb with rfl
    omega
  · rcases List.mem_cons.1 hb with rfl | hb
    · omega
    · rcases List.mem_singleton.1 hb with rfl
      omega
  · rcases List.mem_cons.1 hb with rfl | hb
    · omega
    · rcases List.mem_cons.1 hb with rfl | hb
      · omega
      · rcases List.mem_singleton.1 hb with rfl
        omega
  · rcases List.mem_cons.1 hb with rfl | hb
    · omega
    · rcases List.mem_cons.1 hb with rfl | hb
      · omega
      · rcases List.mem_cons.1 hb with rfl | hb
        · omega
        · rcases List.mem_singleton.1 hb with rfl
          omega

theorem bytesOf_lt (s : String) : ∀ b ∈ bytesOf s, b < 256 := by
  intro b hb
  unfold bytesOf at hb
  rw [List.mem_flatMap] at hb
  obtain ⟨c, _, hc⟩ := hb
  exact utf8Bytes_lt c b hc

theorem utf8Go_start (b : Nat) (rest : List Nat) (acc : Nat) :
    utf8Go 0 acc (b :: rest) =
      if b < 0x80 then (utf8Go 0 0 rest).map (fun cs => Char.ofNat b :: cs)
      else if b < 0xC0 then none
      else if b < 0xE0 then utf8Go 1 (b - 0xC0) rest
      else if b < 0xF0 then utf8Go 2 (b - 0xE0) rest
      else if b < 0xF8 then utf8Go 3 (b - 0xF0) rest
      else none := by
  rw [utf8Go]

theorem utf8Go_more (more acc b : Nat) (rest : List Nat) (h1 : 0x80 ≤ b) (h2 : b < 0xC0) :
    utf8Go (more + 1) acc (b :: rest) =
      if more = 0 then
        (utf8Go 0 0 rest).map (fun cs => Char.ofNat (acc * 64 + (b - 0x80)) :: cs)
      else utf8Go more (acc * 64 + (b - 0x80)) rest := by
  rw [utf8Go, if_pos ⟨h1, h2⟩]

theorem utf8Go_utf8Bytes (c : Char) (bs : List Nat) :
    utf8Go 0 0 (utf8Bytes c ++ bs) = (utf8Go 0 0 bs).map (fun cs => c :: cs) := by
  have hv := char_toNat_valid c
  have hc : Char.ofNat c.toNat = c := Char.ofNat_toNat c
  unfold utf8Bytes
  simp only
  split_ifs with h1 h2 h3
  · rw [List.singleton_append, utf8Go_start, if_pos h1, hc]
  · have e : (0xC0 + c.toNat / 64 - 0xC0) * 64 + (0x80 + c.toNat % 64 - 0x80) = c.toNat := by
      omega
    rw [List.cons_append, List.singleton_append, utf8Go_start,
      if_neg (by omega), if_neg (by omega), if_pos (by omega),
      utf8Go_more _ _ _ _ (by omega) (by omega), if_pos rfl, e, hc]
  · have e : ((0xE0 + c.toNat / 4096 - 0xE0) * 64 + (0x80 + c.toNat / 64 % 64 - 0x80)) * 64
        + (0x80 + c.toNat % 64 - 0x80) = c.toNat := by
      omega
    rw [List.cons_append, List.cons_append, List.singleton_append, utf8Go_start,
      if_neg (by omega), if_neg (by omega), if_neg (by omega), if_pos (by omega),
      utf8Go_more _ _ _ _ (by omega) (by omega), if_neg (by omega),
      utf8Go_more _ _ _ _ (by omega) (by omega), if_pos rfl, e, hc]
  · have e : (((0xF0 + c.toNat / 262144 - 0xF0) * 64 + (0x80 + c.toNat / 4096 % 64 - 0x80)) * 64
        + (0x80 + c.toNat / 64 % 64 - 0x80)) * 64 + (0x80 + c.toNat % 64 - 0x80) = c.toNat := by
      omega
    rw [List.cons_append, List.cons_append, List.cons_append, List.singleton_append,
      utf8Go_start,
      if_neg (by omega), if_neg (by omega), if_neg (by omega), if_neg (by omega),
      if_pos (by omega),
      utf8Go_more _ _ _ _ (by omega) (by omega), if_neg (by omega),
      utf8Go_more _ _ _ _ (by omega) (by omega), if_neg (by omega),
      utf8Go_more _ _ _ _ (by omega) (by omega), if_pos rfl, e, hc]

theorem utf8Decode_bytesOf (s : String) : utf8Decode (bytesOf s) = some s.data := by
  unfold bytesOf utf8Decode
  induction s.data with
  | nil => rfl
  | cons c rest ih =>
    rw [List.flatMap_cons, utf8Go_utf8Bytes, ih]
    rfl

theorem base64.decodeString_encodeToString (s : String) :
    base64.DecodeString (base64.EncodeToString s) = some s := by
  unfold base64.DecodeString base64.EncodeToString
  simp only
  rw [base64.decodeChars_encodeBytes _ (bytesOf_lt s)]
  simp only
  rw [utf8Decode_bytesOf]
  rfl

theorem json.hexVal_hex : ∀ i, i < 16 → json.hexVal (hex i) = some i := by
  decide

theorem json.readString_quote (c : Char) (rest : List Char) (h : c.toNat = 0x22) :
    json.readString (c :: rest) = some ([], rest) := by
  unfold json.readString
  rw [if_pos h]

theorem json.readString_raw (c : Char) (rest : List Char) (h1 : c.toNat ≠ 0x22)
    (h2 : c.toNat ≠ 0x5c) (h3 : ¬ c.toNat < 0x20) :
    json.readString (c :: rest) =
      match json.readString rest with
      | some (s, out) => some (c :: s, out)
      | none => none := by
  conv_lhs => unfold json.readString
  rw [if_neg h1, if_neg h2, if_neg h3]

theorem json.readString_escape (b e ch : Char) (rest : List Char) (hb : b.toNat = 0x5c)
    (he : e ≠ 'u') (hch : json.unescape e = some ch) :
    json.readString (b :: e :: rest) =
      match json.readString rest with
      | some (s, out) => some (ch :: s, out)
      | none => none := by
  conv_lhs => unfold json.readString
  have hb1 : b.toNat ≠ 0x22 := by omega
  rw [if_neg hb1, if_pos hb]
  simp only [if_neg he, hch]
  cases json.readString rest with
  | none => rfl
  | some r => rfl

theorem json.readString_hex (b h0 h1 h2 h3 : Char) (n0 n1 n2 n3 : Nat) (rest : List Char)
    (hb : b.toNat = 0x5c) (e0 : json.hexVal h0 = some n0) (e1 : json.hexVal h1 = some n1)
    (e2 : json.hexVal h2 = some n2) (e3 : json.hexVal h3 = some n3) :
    json.readString (b :: 'u' :: h0 :: h1 :: h2 :: h3 :: rest) =
      match json.readString rest with
      | some (s, out) => some (Char.ofNat (n0 * 4096 + n1 * 256 + n2 * 16 + n3) :: s, out)
      | none => none := by
  conv_lhs => unfold json.readString
  have hb1 : b.toNat ≠ 0x22 := by omega
  rw [if_neg hb1, if_pos hb]
  simp only [if_true, e0, e1, e2, e3]
  cases json.readString rest with
  | none => rfl
  | some r => rfl

theorem json.readString_writeChar_one (c : Char) (tail s out : List Char)
    (h : json.readString tail = some (s, out)) :
    json.readString (writeChar c ++ tail) = some (c :: s, out) := by
  have hbs : (Char.ofNat 0x5c).toNat = 0x5c := by decide
  have hc : Char.ofNat c.toNat = c := Char.ofNat_toNat c
  unfold writeChar
  split_ifs with h1 h2 h3 h4 h5 h6
  · rw [h1] at hc
    simp only [List.cons_append, List.nil_append]
    rw [json.readString_escape _ _ (Char.ofNat 0x22) _ hbs (by decide) (by decide), h, hc]
  · rw [h2] at hc
    simp only [List.cons_append, List.nil_append]
    rw [json.readString_escape _ _ (Char.ofNat 0x5c) _ hbs (by decide) (by decide), h, hc]
  · rw [h3] at hc
    simp only [List.cons_append, List.nil_append]
    rw [json.readString_escape _ _ (Char.ofNat 0x0a) _ hbs (by decide) (by decide), h, hc]
  · rw [h4] at hc
    simp only [List.cons_append, List.nil_append]
    rw [json.readString_escape _ _ (Char.ofNat 0x0d) _ hbs (by decide) (by decide), h, hc]
  · rw [h5] at hc
    simp only [List.cons_append, List.nil_append]
    rw [json.readString_escape _ _ (Char.ofNat 0x09) _ hbs (by decide) (by decide), h, hc]
  · simp only [List.cons_append, List.nil_append]
    have e : 0 * 4096 + 0 * 256 + c.toNat / 16 * 16 + c.toNat % 16 = c.toNat := by omega
    rw [json.readString_hex _ '0' '0' _ _ 0 0 (c.toNat / 16) (c.toNat % 16) _ hbs
      (by decide) (by decide) (json.hexVal_hex _ (by omega)) (json.hexVal_hex _ (by omega)),
      h, e, hc]
  · simp only [List.cons_append, List.nil_append]
    rw [json.readString_raw _ _ h1 h2 h6, h]

/-- Reading back what the JSON stream writes for the characters of a string
gives the characters. -/
theorem json.readString_writeChar (cs rest : List Char) :
    json.readString (cs.flatMap writeChar ++ Char.ofNat 0x22 :: rest) = some (cs, rest) := by
  induction cs with
  | nil => exact json.readString_quote _ _ (by decide)
  | cons c cs ih =>
    rw [List.flatMap_cons, List.append_assoc]
    exact json.readString_writeChar_one c _ cs rest ih

theorem json.skipWs_quote (rest : List Char) :
    json.skipWs (Char.ofNat 0x22 :: rest) = Char.ofNat 0x22 :: rest := by
  rw [json.skipWs, if_neg (by decide)]

theorem json.readQuoted_writeChar (cs rest : List Char) :
    json.readQuoted (Char.ofNat 0x22 :: (cs.flatMap writeChar ++ Char.ofNat 0x22 :: rest))
      = some (String.mk cs, rest) := by
  unfold json.readQuoted json.expect
  rw [json.skipWs_quote]
  simp only
  rw [if_pos (by decide)]
  simp only
  rw [json.readString_writeChar]

/-- Reading one member as the struct encoder writes it: the member read goes in
front of what the following input gives after a comma, and ends the object at a
closing brace. -/
theorem json.readMembers_step (fuel : Nat) (k v tail : List Char) (d : Char)
    (hd1 : ¬ (d.toNat = 0x20 ∨ d.toNat = 0x0a ∨ d.toNat = 0x0d ∨ d.toNat = 0x09)) :
    json.readMembers (fuel + 1)
        (Char.ofNat 0x22 :: (k.flatMap writeChar ++ Char.ofNat 0x22 :: Char.ofNat 0x3a ::
          Char.ofNat 0x22 :: (v.flatMap writeChar ++ Char.ofNat 0x22 :: d :: tail))) =
      if d.toNat = 0x2c then
        match json.readMembers fuel tail with
        | some (ms, out) => some ((String.mk k, String.mk v) :: ms, out)
        | none => none
      else if d.toNat = 0x7d then some ([(String.mk k, String.mk v)], tail)
      else none := by
  rw [json.readMembers, json.readQuoted_writeChar]
  simp only
  have hexp : json.expect 0x3a (Char.ofNat 0x3a :: Char.ofNat 0x22 ::
      (v.flatMap writeChar ++ Char.ofNat 0x22 :: d :: tail))
      = some (Char.ofNat 0x22 :: (v.flatMap writeChar ++ Char.ofNat 0x22 :: d :: tail)) := by
    unfold json.expect
    rw [json.skipWs, if_neg (by decide)]
    simp only
    rw [if_pos (by decide)]
  rw [hexp]
  simp only
  rw [json.readQuoted_writeChar]
  simp only
  rw [json.skipWs, if_neg hd1]

theorem json.readMembers_member (fuel : Nat) (k v tail : List Char) (d : Char)
    (hd1 : ¬ (d.toNat = 0x20 ∨ d.toNat = 0x0a ∨ d.toNat = 0x0d ∨ d.toNat = 0x09)) :
    json.readMembers (fuel + 1) (memberChars k v (d :: tail)) =
      if d.toNat = 0x2c then
        match json.readMembers fuel tail with
        | some (ms, out) => some ((String.mk k, String.mk v) :: ms, out)
        | none => none
      else if d.toNat = 0x7d then some ([(String.mk k, String.mk v)], tail)
      else none :=
  json.readMembers_step fuel k v tail d hd1

theorem json.readMembers_membersChars (ms : List (String × String)) :
    ∀ (fuel : Nat) (tail : List Char), ms ≠ [] → ms.length ≤ fuel →
      json.readMembers fuel (membersChars ms tail) = some (ms, tail) := by
  induction ms with
  | nil => intro fuel tail h; exact absurd rfl h
  | cons m rest ih =>
    intro fuel tail _ hlen
    obtain ⟨f, rfl⟩ : ∃ f, fuel = f + 1 := ⟨fuel - 1, by simp at hlen; omega⟩
    cases rest with
    | nil =>
      rw [membersChars, json.readMembers_member _ _ _ _ _ (by decide),
        if_neg (by decide), if_pos (by decide)]
    | cons m2 rest2 =>
      rw [membersChars, json.readMembers_member _ _ _ _ _ (by decide), if_pos (by decide),
        ih f tail (by simp) (by simp at hlen ⊢; omega)]

theorem membersChars_length (ms : List (String × String)) (tail : List Char) :
    ms.length ≤ (membersChars ms tail).length := by
  induction ms with
  | nil => simp
  | cons m rest ih =>
    cases rest with
    | nil => simp [membersChars, memberChars]
    | cons m2 rest2 =>
      rw [membersChars]
      simp only [memberChars, List.length_cons, List.length_append] at ih ⊢
      omega

theorem json.readObject_objectChars (ms : List (String × String)) (tail : List Char)
    (hms : ms ≠ []) (htail : json.skipWs tail = []) :
    json.readObject (objectChars ms tail) = some ms := by
  have hopen : json.expect 0x7b (objectChars ms tail) = some (membersChars ms tail) := by
    unfold json.expect objectChars
    rw [json.skipWs, if_neg (by decide)]
    simp only
    rw [if_pos (by decide)]
  have hclose : json.expect 0x7d (membersChars ms tail) = none := by
    unfold json.expect
    cases ms with
    | nil => exact absurd rfl hms
    | cons m rest =>
      cases rest with
      | nil =>
        rw [membersChars, memberChars, json.skipWs_quote]
        simp only
        rw [if_neg (by decide)]
      | cons m2 rest2 =>
        rw [membersChars, memberChars, json.skipWs_quote]
        simp only
        rw [if_neg (by decide)]
  have hlen : ms.length ≤ (objectChars ms tail).length := by
    have := membersChars_length ms tail
    simp only [objectChars, List.length_cons]
    omega
  unfold json.readObject
  rw [hopen]
  simp only
  rw [hclose]
  simp only
  rw [json.readMembers_membersChars ms _ tail hms hlen]
  simp only
  rw [if_pos htail]

theorem marshalVMessServer_data (v : VMessServer) :
    (marshalVMessServer v ++ "\n").data = objectChars (serverMembers v) [Char.ofNat 0x0a] := by
  have q1 : Char.ofNat 0x22 = '\x22' := rfl
  have q2 : Char.ofNat 0x3a = ':' := rfl
  have q3 : Char.ofNat 0x2c = ',' := rfl
  have q4 : Char.ofNat 0x7b = '\x7b' := rfl
  have q5 : Char.ofNat 0x7d = '\x7d' := rfl
  have q6 : Char.ofNat 0x0a = '\n' := rfl
  have w : ∀ c ∈ "vpsadortinetyhl".data, writeChar c = [c] := by decide
  simp [marshalVMessServer, writeField, WriteString, String.intercalate, String.intercalate.go,
    objectChars, membersChars, memberChars, serverMembers, String.data_append, q1, q2, q3, q4,
    q5, q6, w]

/-! ## C11: an unknown key -/

/-- C11: for a key that is not in the subscriber index, both handlers give the
404 not-found reply with the same body, whatever the key, the rule-set id and
the contents of the Publisher. -/
theorem unknownKey_notFound (p q : Publisher) (key otherKey rulesID : String)
    (hp : GoMap.get p.subscriberIndex key = none)
    (hq : GoMap.get q.subscriberIndex otherKey = none) :
    PublishServersHandle p key = { status := 404, body := "404 page not found\n" }
      ∧ PublishRoutingRulesHandle q otherKey rulesID
        = { status := 404, body := "404 page not found\n" } := by
  unfold PublishServersHandle PublishRoutingRulesHandle
  rw [hp, hq]
  exact ⟨rfl, rfl⟩

/-- C11 in the scenario: the server list for `wrongkey` and the rule set `r1`
for an empty key on another Publisher are the same 404. -/
theorem unknownKey_notFound_witness :
    GoMap.get scenarioPub.subscriberIndex "wrongkey" = none
      ∧ GoMap.get orphanPub.subscriberIndex "" = none
      ∧ PublishServersHandle scenarioPub "wrongkey"
        = { status := 404, body := "404 page not found\n" }
      ∧ PublishRoutingRulesHandle orphanPub "" "r1"
        = { status := 404, body := "404 page not found\n" } :=
  have h := unknownKey_notFound scenarioPub orphanPub "wrongkey" "" "r1" (by decide) (by decide)
  ⟨by decide, by decide, h.1, h.2⟩

/-! ## C12: a listed server that does not resolve -/

/-- C12: when a subscriber of the subscriber index lists at least one server id
that is absent from the server index, the reply has status 500 and its body is
exactly the fixed message, with nothing of the links of the servers that
resolved before the missing one. -/
theorem publishServers_missing (p : Publisher) (key : String) (subscriber : Subscriber)
    (hkey : GoMap.get p.subscriberIndex key = some subscriber)
    (hmiss : ∃ id ∈ subscriber.VMessServers, GoMap.has p.vmessServerIndex id = false) :
    PublishServersHandle p key =
      { status := 500, body := "Server Internal Error, Please tell the administrator." } := by
  unfold PublishServersHandle
  rw [hkey]
  simp only
  rw [writeServers_missing p _ _ hmiss]
  rfl

/-- C12 at a subscriber whose first server resolves and whose second is
missing. -/
theorem publishServers_missing_witness :
    GoMap.get davePub.subscriberIndex "davedavedave" = some dave
      ∧ dave.VMessServers = ["s1", "s9"]
      ∧ GoMap.has davePub.vmessServerIndex "s1" = true
      ∧ GoMap.has davePub.vmessServerIndex "s9" = false
      ∧ PublishServersHandle davePub "davedavedave" =
        { status := 500, body := "Server Internal Error, Please tell the administrator." } :=
  ⟨by decide, by decide, by decide, by decide,
    publishServers_missing davePub "davedavedave" dave (by decide)
      ⟨"s9", by decide, by decide⟩⟩

/-! ## C13: the share link read back -/

/-- C13: for every server, `ShareLink` succeeds, and removing `vmess://` from its
result, decoding the rest as padded standard base64 and decoding the bytes as a
JSON object succeeds and gives the twelve string fields v, ps, add, port, id,
aid, net, type, host, path, tls, sni with the values of the server's fields. -/
theorem decodeShareLink_shareLink (v : VMessServer) :
    (ShareLink (some v)).2 = none
      ∧ decodeShareLink (ShareLink (some v)).1 =
        some [ ("v", v.ConfigVersion), ("ps", v.Remarks), ("add", v.Address), ("port", v.Port),
          ("id", v.ID), ("aid", v.AlterID), ("net", v.Network), ("type", v.HeaderType),
          ("host", v.RequestHost), ("path", v.Path), ("tls", v.StreamSecurity),
          ("sni", v.SNI) ] := by
  have hs := shareLink_some (some v)
  have h1 : (ShareLink (some v)).1
      = "vmess://" ++ base64.EncodeToString (marshalVMessServer v ++ "\n") :=
    congrArg Prod.fst hs
  have h2 : (ShareLink (some v)).2 = none := congrArg Prod.snd hs
  have hlen : ("vmess://" : String).data.length = 8 := rfl
  have henc : (base64.EncodeToString (marshalVMessServer v ++ "\n")).data
      = base64.encodeBytes (bytesOf (marshalVMessServer v ++ "\n")) := by
    simp only [base64.EncodeToString]
  have hdrop : dropScheme
      ("vmess://" ++ base64.EncodeToString (marshalVMessServer v ++ "\n")).data
      = some (base64.encodeBytes (bytesOf (marshalVMessServer v ++ "\n"))) := by
    unfold dropScheme
    rw [String.data_append, List.take_left' hlen, List.drop_left' hlen, if_pos rfl, henc]
  refine ⟨h2, ?_⟩
  rw [h1]
  unfold decodeShareLink
  rw [hdrop, Option.some_bind, base64.decodeChars_encodeBytes _ (bytesOf_lt _),
    Option.some_bind, utf8Decode_bytesOf, Option.some_bind, marshalVMessServer_data]
  exact json.readObject_objectChars _ _ (by simp [serverMembers]) (by decide)

/-! ## C14: the error for an invalid key -/

/-- C14 fails on the code: for a file whose only subscriber `mallory` has a key of
five characters, the error is the validator's error for the tag `gte` on the
field `Key`, and its message does not contain the remark `mallory`. -/
theorem loadConfigFile_invalidKey_message :
    (LoadConfigFile NewPublisher (.bytes malloryDoc)).outcome = .error (.invalidKey "gte")
      ∧ (LoadError.invalidKey "gte").Error
        = "Key: \x27Subscriber.Key\x27 Error:Field validation for \x27Key\x27 failed on the \x27gte\x27 tag"
      ∧ ¬ (mallory.Remarks.data <:+: (LoadError.invalidKey "gte").Error.data) := by
  set_option maxRecDepth 100000 in decide

/-! ## C15: the serialised rule set -/

/-- C15: for an authorised request the reply is 200 with the JSON array of the
stored rules in stored order (`null` for a nil list); each rule object is the
object of its members, which are, in this order: `domain`, `ip`, `port` and
`protocol`, each present exactly when the field is not empty and then bound to
the JSON array of the strings of the list (for `port`, to the string), and
`outboundTag`, always present and bound to the tag as a JSON string, also when
it is empty. -/
theorem publishRoutingRules_ok (p : Publisher) (key : String) (subscriber : Subscriber)
    (rulesID : String) (rules : Option (List RoutingRule))
    (hkey : GoMap.get p.subscriberIndex key = some subscriber)
    (hmem : rulesID ∈ subscriber.RoutingRules)
    (hget : GoMap.get p.routingRulesIndex rulesID = some rules) :
    PublishRoutingRulesHandle p key rulesID =
        { status := 200,
          body := match rules with
            | none => "null"
            | some l => "[" ++ ",".intercalate (l.map marshalRoutingRule) ++ "]" }
      ∧ ∀ r : RoutingRule,
        marshalRoutingRule r = writeObject (ruleMembers r)
          ∧ ruleMembers r =
            (if r.Domain = [] then []
              else [("domain", "[" ++ ",".intercalate (r.Domain.map WriteString) ++ "]")])
            ++ (if r.IP = [] then []
              else [("ip", "[" ++ ",".intercalate (r.IP.map WriteString) ++ "]")])
            ++ (if r.Port = "" then [] else [("port", WriteString r.Port)])
            ++ (if r.Protocol = [] then []
              else [("protocol", "[" ++ ",".intercalate (r.Protocol.map WriteString) ++ "]")])
            ++ [("outboundTag", WriteString r.OutboundTag)]
          ∧ ("domain" ∈ (ruleMembers r).map Prod.fst ↔ r.Domain ≠ [])
          ∧ ("ip" ∈ (ruleMembers r).map Prod.fst ↔ r.IP ≠ [])
          ∧ ("protocol" ∈ (ruleMembers r).map Prod.fst ↔ r.Protocol ≠ [])
          ∧ ("port" ∈ (ruleMembers r).map Prod.fst ↔ r.Port ≠ "")
          ∧ ("outboundTag", WriteString r.OutboundTag) ∈ ruleMembers r := by
  constructor
  · have hany : subscriber.RoutingRules.any (fun allowedRulesID => allowedRulesID = rulesID)
        = true := by
      simpa using hmem
    unfold PublishRoutingRulesHandle
    simp only [hkey, hany, if_true, hget]
    cases rules <;> rfl
  · intro r
    refine ⟨marshalRoutingRule_eq r, ?_, ?_, ?_, ?_, ?_, ?_⟩
    · by_cases h1 : r.Domain.isEmpty <;> by_cases h2 : r.IP.isEmpty <;>
        by_cases h3 : r.Port.isEmpty <;> by_cases h4 : r.Protocol.isEmpty <;>
        simp_all [ruleMembers, writeStrings, String.isEmpty_iff]
    · by_cases h1 : r.Domain.isEmpty <;> by_cases h2 : r.IP.isEmpty <;>
        by_cases h3 : r.Port.isEmpty <;> by_cases h4 : r.Protocol.isEmpty <;>
        simp_all [ruleMembers]
    · by_cases h1 : r.Domain.isEmpty <;> by_cases h2 : r.IP.isEmpty <;>
        by_cases h3 : r.Port.isEmpty <;> by_cases h4 : r.Protocol.isEmpty <;>
        simp_all [ruleMembers]
    · by_cases h1 : r.Domain.isEmpty <;> by_cases h2 : r.IP.isEmpty <;>
        by_cases h3 : r.Port.isEmpty <;> by_cases h4 : r.Protocol.isEmpty <;>
        simp_all [ruleMembers]
    · by_cases h1 : r.Domain.isEmpty <;> by_cases h2 : r.IP.isEmpty <;>
        by_cases h3 : r.Port.isEmpty <;> by_cases h4 : r.Protocol.isEmpty <;>
        simp_all [ruleMembers, String.isEmpty_iff]
    · simp [ruleMembers]

/-- C15 at a rule set of two rules: the first has a domain list, the second only
an empty outbound tag. -/
theorem publishRoutingRules_ok_witness :
    GoMap.get rulesPub.subscriberIndex "erinerinerin" = some erin
      ∧ "r1" ∈ erin.RoutingRules
      ∧ GoMap.get rulesPub.routingRulesIndex "r1" = some (some rulesR2)
      ∧ PublishRoutingRulesHandle rulesPub "erinerinerin" "r1" =
        { status := 200,
          body := "[\x7b\x22domain\x22:[\x22a.com\x22,\x22b.com\x22],\x22outboundTag\x22:\x22direct\x22\x7d,\x7b\x22outboundTag\x22:\x22\x22\x7d]" } :=
  ⟨by decide, by decide, by decide,
    (publishRoutingRules_ok rulesPub "erinerinerin" erin "r1" (some rulesR2)
      (by decide) (by decide) (by decide)).1.trans (by decide)⟩

/-! ## C16: a subscriber without servers -/

/-- C16: for a subscriber of the subscriber index whose server-id list is empty,
the reply has status 200 and an empty body. -/
theorem publishServers_empty (p : Publisher) (key : String) (subscriber : Subscriber)
    (hkey : GoMap.get p.subscriberIndex key = some subscriber)
    (hnil : subscriber.VMessServers = []) :
    PublishServersHandle p key = { status := 200, body := "" } := by
  unfold PublishServersHandle
  rw [hkey]
  simp only
  rw [hnil, writeServers]
  rfl

/-- C16 at a subscriber who lists no server. -/
theorem publishServers_empty_witness :
    GoMap.get erinPub.subscriberIndex "erinerinerin" = some erin
      ∧ erin.VMessServers = []
      ∧ PublishServersHandle erinPub "erinerinerin" = { status := 200, body := "" } :=
  ⟨by decide, by decide, publishServers_empty erinPub "erinerinerin" erin (by decide) rfl⟩

/-! ## C17: no internal error after a successful load -/

/-- C17: after `LoadConfigFile` has succeeded on a fresh Publisher, both
handlers answer every key and every rule-set id with status 200 or 404, never
with the 500 of an id missing from an index. -/
theorem handlers_after_load (file : File) (key rulesID : String)
    (h : (LoadConfigFile NewPublisher file).outcome = .ok) :
    ((PublishServersHandle (LoadConfigFile NewPublisher file).pub key).status = 200
        ∨ (PublishServersHandle (LoadConfigFile NewPublisher file).pub key).status = 404)
      ∧ ((PublishRoutingRulesHandle (LoadConfigFile NewPublisher file).pub key rulesID).status
          = 200
        ∨ (PublishRoutingRulesHandle (LoadConfigFile NewPublisher file).pub key rulesID).status
          = 404) := by
  obtain ⟨q, hq0, hcheck, hnodup, hpub⟩ := loadConfigFile_ok_pub file h
  rw [hpub]
  cases hget : GoMap.get (updateSubscriberIndex [] q.subscribers).1 key with
  | none =>
    constructor
    · right
      simp [PublishServersHandle, hget, NotFound]
    · right
      simp [PublishRoutingRulesHandle, hget, NotFound]
  | some s =>
    have hs : s ∈ q.subscribers := by
      rcases updateSubscriberIndex_get _ _ _ _ hget with h0 | ⟨h1, _⟩
      · simp [GoMap.get] at h0
      · exact h1
    obtain ⟨_, hservers, hrules⟩ := (checkSubscriber_eq_none q s).1 (hcheck s hs)
    constructor
    · left
      unfold PublishServersHandle
      simp only [hget]
      rw [writeServers_ok { q with subscriberIndex := (updateSubscriberIndex [] q.subscribers).1 }
        _ _ hservers]
    · by_cases hmem : rulesID ∈ s.RoutingRules
      · left
        have hany : s.RoutingRules.any (fun allowedRulesID => allowedRulesID = rulesID)
            = true := by
          simpa using hmem
        have hhas := hrules rulesID hmem
        unfold GoMap.has at hhas
        rw [Option.isSome_iff_exists] at hhas
        obtain ⟨rules, hr⟩ := hhas
        unfold PublishRoutingRulesHandle
        simp only [hget, hany, if_true, hr]
        cases rules <;> rfl
      · right
        rw [publishRoutingRules_not_listed _ key s rulesID hget hmem]
        rfl

/-- C17 in the scenario: the document loads, and `alice` asking for her servers
and for `r1` is answered 200 or 404. -/
theorem handlers_after_load_witness :
    (LoadConfigFile NewPublisher (.bytes scenarioDoc)).outcome = .ok
      ∧ ((PublishServersHandle (LoadConfigFile NewPublisher (.bytes scenarioDoc)).pub
            "abcdefghij0123").status = 200
        ∨ (PublishServersHandle (LoadConfigFile NewPublisher (.bytes scenarioDoc)).pub
            "abcdefghij0123").status = 404)
      ∧ ((PublishRoutingRulesHandle (LoadConfigFile NewPublisher (.bytes scenarioDoc)).pub
            "abcdefghij0123" "r1").status = 200
        ∨ (PublishRoutingRulesHandle (LoadConfigFile NewPublisher (.bytes scenarioDoc)).pub
            "abcdefghij0123" "r1").status = 404) :=
  have h := handlers_after_load (.bytes scenarioDoc) "abcdefghij0123" "r1" (by decide)
  ⟨by decide, h.1, h.2⟩

/-! ## C18: the subscriber index after a successful load -/

/-- C18: after `LoadConfigFile` has succeeded on a fresh Publisher, the keys of
the subscriber index are exactly the keys of the loaded subscribers, the entry
at the key of each loaded subscriber is that subscriber, and every entry of the
index is a loaded subscriber stored under its own key. -/
theorem subscriberIndex_after_load (file : File)
    (h : (LoadConfigFile NewPublisher file).outcome = .ok) :
    (∀ k, GoMap.has (LoadConfigFile NewPublisher file).pub.subscriberIndex k = true
        ↔ k ∈ (LoadConfigFile NewPublisher file).pub.subscribers.map Subscriber.Key)
      ∧ (∀ s ∈ (LoadConfigFile NewPublisher file).pub.subscribers,
          GoMap.get (LoadConfigFile NewPublisher file).pub.subscriberIndex s.Key = some s)
      ∧ (∀ k s, GoMap.get (LoadConfigFile NewPublisher file).pub.subscriberIndex k = some s →
          s ∈ (LoadConfigFile NewPublisher file).pub.subscribers ∧ s.Key = k) := by
  obtain ⟨q, hq0, hcheck, hnodup, hpub⟩ := loadConfigFile_ok_pub file h
  rw [hpub]
  simp only
  have hget : ∀ k s, GoMap.get (updateSubscriberIndex [] q.subscribers).1 k = some s →
      s ∈ q.subscribers ∧ s.Key = k := by
    intro k s hks
    rcases updateSubscriberIndex_get _ _ _ _ hks with h0 | h1
    · simp [GoMap.get] at h0
    · exact h1
  refine ⟨?_, ?_, hget⟩
  · intro k
    constructor
    · intro hk
      unfold GoMap.has at hk
      rw [Option.isSome_iff_exists] at hk
      obtain ⟨s, hs⟩ := hk
      exact List.mem_map.2 ⟨s, (hget k s hs).1, (hget k s hs).2⟩
    · intro hk
      obtain ⟨s, hs, rfl⟩ := List.mem_map.1 hk
      simp [GoMap.has, updateSubscriberIndex_mem _ _ hnodup s hs]
  · intro s hs
    exact updateSubscriberIndex_mem _ _ hnodup s hs

/-- C18 in the scenario: after the load the index holds `alice` under her key. -/
theorem subscriberIndex_after_load_witness :
    (LoadConfigFile NewPublisher (.bytes scenarioDoc)).outcome = .ok
      ∧ alice ∈ (LoadConfigFile NewPublisher (.bytes scenarioDoc)).pub.subscribers
      ∧ GoMap.get (LoadConfigFile NewPublisher (.bytes scenarioDoc)).pub.subscriberIndex
          alice.Key = some alice :=
  ⟨by decide, by decide,
    (subscriberIndex_after_load (.bytes scenarioDoc) (by decide)).2.1 alice (by decide)⟩

/-! ## C19: the body of the server list read back -/

/-- C19: for a key of the subscriber index whose listed server ids all resolve,
the body of the 200 reply is the padded standard base64 encoding of one string,
decoding it gives the concatenation, in list order, of the line of each server,
and the line of a server is its share link (itself `vmess://` followed by the
base64 encoding of the JSON text) followed by one line feed. -/
theorem publishServers_body_decodes (p : Publisher) (key : String) (subscriber : Subscriber)
    (hkey : GoMap.get p.subscriberIndex key = some subscriber)
    (hall : ∀ id ∈ subscriber.VMessServers, GoMap.has p.vmessServerIndex id = true) :
    (PublishServersHandle p key).status = 200
      ∧ (PublishServersHandle p key).body
        = base64.EncodeToString (serverLines p subscriber.VMessServers)
      ∧ base64.DecodeString (PublishServersHandle p key).body
        = some (serverLines p subscriber.VMessServers)
      ∧ ∀ id server, GoMap.get p.vmessServerIndex id = some server →
          serverLine p id = (ShareLink server).1 ++ "\n"
            ∧ (ShareLink server).1
              = "vmess://" ++ base64.EncodeToString (marshalServer server ++ "\n") := by
  have hresp : PublishServersHandle p key =
      { status := 200,
        body := base64.EncodeToString (serverLines p subscriber.VMessServers) } := by
    unfold PublishServersHandle
    rw [hkey]
    simp only
    rw [writeServers_ok p _ _ hall]
    simp [Encoder.Close, Writer.Write, base64.NewEncoder]
  rw [hresp]
  refine ⟨rfl, rfl, base64.decodeString_encodeToString _, ?_⟩
  intro id server hget
  constructor
  · unfold serverLine
    rw [hget]
  · rw [shareLink_some]

/-- C19 in the scenario: the body served to `abcdefghij0123` decodes to the one
line of `s1`. -/
theorem publishServers_body_decodes_witness :
    GoMap.get scenarioPub.subscriberIndex "abcdefghij0123" = some alice
      ∧ (∀ id ∈ alice.VMessServers, GoMap.has scenarioPub.vmessServerIndex id = true)
      ∧ base64.DecodeString (PublishServersHandle scenarioPub "abcdefghij0123").body
        = some (serverLines scenarioPub alice.VMessServers) :=
  ⟨by decide, by decide,
    (publishServers_body_decodes scenarioPub "abcdefghij0123" alice (by decide)
      (by decide)).2.2.1⟩

end V2rayPublisher
